import Mathlib

/-!
Verification of the `midibox` playback engine (`src/player.rs`).

The embedding models the `Player` tick scheduler and note-lifecycle tracker:
the sounding-note table (`playing_notes`, a `HashMap<u64, PlayingNote>` in the
source, modelled as an association list with unique keys), the tick and
note-identifier counters, channel polling, elapsed-note reaping, event routing
and the run loop of `try_run_ext`.

External collaborators that are not part of the source under verification
(`Midi` notes, the `Midibox` source trait, the MIDI status constants, the
router and the output sink) are modelled from the spec where noted.
-/

/-- Modelled from the spec: the `Midi` note type of `crate::midi` is not part of
the verified sources.  Per the spec a note carries a pitch-or-rest indicator,
a duration in ticks (non-negative integer) and a velocity.  `pitch` is the
result of the source's `u8_maybe`: `none` for a rest, `some v` for the pitch
byte. -/
structure Midi where
  pitch : Option Nat
  duration : Nat
  velocity : Nat
deriving DecidableEq, Repr

/-- Modelled from the spec: `u8_maybe` yields the protocol pitch byte, or
`none` when the note is a rest. -/
def Midi.u8_maybe (m : Midi) : Option Nat := m.pitch

/-- Modelled from the spec: the "start" status constant of the 3-byte event
format (`0x90`, per Scenario A of the spec). -/
def NOTE_ON_MSG : Nat := 0x90

/-- Modelled from the spec: the "stop" status constant of the 3-byte event
format (`0x80`, per Scenario A of the spec). -/
def NOTE_OFF_MSG : Nat := 0x80

/-- A sounding-note record, from `PlayingNote` in `player.rs`:
`{ channel_id, start_tick_id, note }`. -/
structure PlayingNote where
  channel_id : Nat
  start_tick_id : Nat
  note : Midi
deriving DecidableEq, Repr

/-- The `Player` state from `player.rs`: tick counter, note-identifier counter,
and the sounding-note table (`HashMap<u64, PlayingNote>`, modelled as an
association list in insertion order). -/
structure Player where
  tick_id : Nat
  note_id : Nat
  playing_notes : List (Nat × PlayingNote)
deriving DecidableEq, Repr

/-- `Player::new`. -/
def Player.new : Player :=
  { tick_id := 0, note_id := 0, playing_notes := [] }

/-- `Player::do_tick`: increment the tick counter (the sleep on the tempo
provider has no effect on the scheduler state and is elided). -/
def Player.do_tick (p : Player) : Player :=
  { p with tick_id := p.tick_id + 1 }

/-- `Player::time`. -/
def Player.time (p : Player) : Nat := p.tick_id

/-- `Player::should_poll_channel`: a channel is polled only when it has no
record in the sounding-note table. -/
def Player.should_poll_channel (p : Player) (channel_id : Nat) : Bool :=
  (p.playing_notes.countP (fun kv => kv.2.channel_id == channel_id)) == 0

/-- Modelled from the spec: a note source (`Midibox` channel).  The trait is an
external collaborator; a deterministic source is a script of responses to
successive `next()` calls, with a constant response once the script is
exhausted. -/
structure Channel where
  script : List (Option (List Midi))
  after : Option (List Midi)
deriving DecidableEq, Repr

/-- One `next()` call on a source: pop the next scripted response. -/
def Channel.next (c : Channel) : Option (List Midi) × Channel :=
  match c.script with
  | [] => (c.after, c)
  | r :: rest => (r, { c with script := rest })

/-- Trace events recorded by the model: polls, table insertions, routing
invocations (start, natural-elapse stop, shutdown-drain stop) and bytes
handed to the output sink. -/
inductive Ev where
  | polled (tick : Nat) (channel_id : Nat)
  | insert (note_id : Nat) (r : PlayingNote)
  | routeStart (tick : Nat) (r : PlayingNote)
  | routeStop (tick : Nat) (r : PlayingNote)
  | drainStop (tick : Nat) (r : PlayingNote)
  | sent (tick : Nat) (port : Nat) (bytes : List Nat)
deriving DecidableEq, Repr

/-- The inner loop of `Player::poll_channels` over one returned batch: advance
the note-identifier for every note, discard zero-duration notes, insert the
rest into the sounding-note table keyed by the fresh identifier. -/
def Player.admit_notes (p : Player) (channel_id : Nat) : List Midi → Player × List Ev
  | [] => (p, [])
  | note :: rest =>
    let nid := p.note_id + 1
    let p1 : Player := { p with note_id := nid }
    if note.duration == 0 then
      Player.admit_notes p1 channel_id rest
    else
      let r : PlayingNote :=
        { channel_id := channel_id, start_tick_id := p1.tick_id, note := note }
      let p2 : Player := { p1 with playing_notes := p1.playing_notes ++ [(nid, r)] }
      let tail := Player.admit_notes p2 channel_id rest
      (tail.1, Ev.insert nid r :: tail.2)

/-- The channel iteration of `Player::poll_channels`: skip channels that still
have sounding notes, call `next()` on the others and admit the returned batch
(a `None` answer is only logged). -/
def pollChannelsAux (p : Player) (idx : Nat) :
    List Channel → Player × List Channel × List Ev
  | [] => (p, [], [])
  | c :: rest =>
    if p.should_poll_channel idx then
      let rc := c.next
      let ar :=
        match rc.1 with
        | some notes => Player.admit_notes p idx notes
        | none => (p, [])
      let tail := pollChannelsAux ar.1 (idx + 1) rest
      (tail.1, rc.2 :: tail.2.1, Ev.polled p.tick_id idx :: (ar.2 ++ tail.2.2))
    else
      let tail := pollChannelsAux p (idx + 1) rest
      (tail.1, c :: tail.2.1, tail.2.2)

/-- Result of `Player::poll_channels`: the updated player and channel states,
the model trace, and the returned vector of newly started records. -/
structure PollResult where
  player : Player
  channels : List Channel
  events : List Ev
  started : List PlayingNote
deriving DecidableEq, Repr

/-- `Player::poll_channels`: poll every eligible channel, then return the
records whose start tick equals the current tick. -/
def Player.poll_channels (p : Player) (chans : List Channel) : PollResult :=
  let res := pollChannelsAux p 0 chans
  { player := res.1
    channels := res.2.1
    events := res.2.2
    started :=
      (res.1.playing_notes.filter
        (fun kv => kv.2.start_tick_id == res.1.tick_id)).map Prod.snd }

/-- `HashMap::remove` on the association-list model: drop the entry with the
given key. -/
def removeKey : List (Nat × PlayingNote) → Nat → List (Nat × PlayingNote)
  | [], _ => []
  | kv :: rest, k => if kv.1 == k then rest else kv :: removeKey rest k

/-- The loop body of `Player::clear_notes`: iterate over a clone of the table,
removing matching entries from the live table and collecting their records. -/
def clearNotesAux (should_clear : PlayingNote → Bool) :
    List (Nat × PlayingNote) → List (Nat × PlayingNote) →
      List (Nat × PlayingNote) × List PlayingNote
  | [], live => (live, [])
  | kv :: rest, live =>
    if should_clear kv.2 then
      let tail := clearNotesAux should_clear rest (removeKey live kv.1)
      (tail.1, kv.2 :: tail.2)
    else
      clearNotesAux should_clear rest live

/-- `Player::clear_notes`. -/
def Player.clear_notes (p : Player) (should_clear : PlayingNote → Bool) :
    Player × List PlayingNote :=
  let res := clearNotesAux should_clear p.playing_notes p.playing_notes
  ({ p with playing_notes := res.1 }, res.2)

/-- `Player::clear_elapsed_notes`: remove and return every record whose start
tick plus duration equals the current tick. -/
def Player.clear_elapsed_notes (p : Player) : Player × List PlayingNote :=
  p.clear_notes (fun note => note.start_tick_id + note.note.duration == p.tick_id)

/-- `Player::clear_all_notes`: remove and return every record. -/
def Player.clear_all_notes (p : Player) : Player × List PlayingNote :=
  p.clear_notes (fun _ => true)

/-- Fatal sink conditions of `route_note`: in the source both are panics
(`unwrap_or_else(|| panic!(..))`), terminating the run loop by unwinding. -/
inductive Fatal where
  | noConnection (port_id : Nat)
  | sendFailed (port_id : Nat)
deriving DecidableEq, Repr

/-- Modelled from the spec: the output sink (`port_id_to_conn` plus the
`MidiOutputConnection::send` behaviour).  `hasConn` says whether the
connection map holds a connection for a port; `sendOk` whether a send of the
given bytes on a port succeeds. -/
structure Sink where
  hasConn : Nat → Bool
  sendOk : Nat → List Nat → Bool

/-- `route_note` from `player.rs`: a rest routes nothing; a missing routing
entry is only logged and routes nothing; a missing connection or failing send
is fatal (a panic in the source).  On success the 3-byte event
`[status, pitch, velocity]` goes to the routed port. -/
def route_note (route : Nat → Option Nat) (sink : Sink)
    (playing : PlayingNote) (midi_status : Nat) :
    Except Fatal (List (Nat × List Nat)) :=
  match playing.note.u8_maybe with
  | none => Except.ok []
  | some v =>
    let bytes : List Nat := [midi_status, v, playing.note.velocity]
    match route playing.channel_id with
    | none => Except.ok []
    | some port_id =>
      if sink.hasConn port_id then
        if sink.sendOk port_id bytes then Except.ok [(port_id, bytes)]
        else Except.error (Fatal.sendFailed port_id)
      else Except.error (Fatal.noConnection port_id)

/-- Route a list of records with one status byte, tagging the trace with the
given marker; the first fatal condition aborts with the trace so far. -/
def routeMany (route : Nat → Option Nat) (sink : Sink) (status tick : Nat)
    (mk : PlayingNote → Ev) : List PlayingNote → Except (Fatal × List Ev) (List Ev)
  | [] => Except.ok []
  | r :: rest =>
    match route_note route sink r status with
    | Except.error f => Except.error (f, [mk r])
    | Except.ok sends =>
      let sentEvs := sends.map (fun pb => Ev.sent tick pb.1 pb.2)
      match routeMany route sink status tick mk rest with
      | Except.error fe => Except.error (fe.1, (mk r :: sentEvs) ++ fe.2)
      | Except.ok evs => Except.ok ((mk r :: sentEvs) ++ evs)

/-- Outcome of a (fuel-bounded) run of the `try_run_ext` loop.  `panicked`
models the Rust panic raised on a fatal sink condition: it carries the player
state and trace at the moment of the panic and is distinct from `err`, the
`Result::Err` return value used for startup failures. -/
inductive Outcome where
  | ok (p : Player) (tr : List Ev)
  | panicked (f : Fatal) (p : Player) (tr : List Ev)
  | err (failed_port : Nat)
  | fuelOut (p : Player) (chans : List Channel) (tr : List Ev)
deriving DecidableEq, Repr

/-- The shutdown drain after the run loop of `try_run_ext`: clear every
remaining record and route one stop event per record. -/
def drainStep (route : Nat → Option Nat) (sink : Sink) (p : Player)
    (tr : List Ev) : Outcome :=
  let cr := p.clear_all_notes
  match routeMany route sink NOTE_OFF_MSG cr.1.tick_id (Ev.drainStop cr.1.tick_id) cr.2 with
  | Except.error fe => Outcome.panicked fe.1 cr.1 (tr ++ fe.2)
  | Except.ok evs => Outcome.ok cr.1 (tr ++ evs)

/-- One iteration of the run loop of `try_run_ext` while the flag is true:
poll channels, route a start event per newly started record, advance the
clock, reap elapsed records and route a stop event per reaped record.  A
fatal routing condition aborts with the player state and trace at the panic. -/
def loopBody (route : Nat → Option Nat) (sink : Sink) (p : Player)
    (chans : List Channel) :
    Except (Fatal × Player × List Ev) (Player × List Channel × List Ev) :=
  let pr := p.poll_channels chans
  match routeMany route sink NOTE_ON_MSG pr.player.tick_id
      (Ev.routeStart pr.player.tick_id) pr.started with
  | Except.error fe => Except.error (fe.1, pr.player, pr.events ++ fe.2)
  | Except.ok startEvs =>
    let p2 := pr.player.do_tick
    let cr := p2.clear_elapsed_notes
    match routeMany route sink NOTE_OFF_MSG cr.1.tick_id
        (Ev.routeStop cr.1.tick_id) cr.2 with
    | Except.error fe =>
      Except.error (fe.1, cr.1, pr.events ++ startEvs ++ fe.2)
    | Except.ok stopEvs =>
      Except.ok (cr.1, pr.channels, pr.events ++ startEvs ++ stopEvs)

/-- The run loop of `try_run_ext` (continued): iterate `loopBody` while the
running flag, read once at the top of each iteration, is true; once it is
false, drain.  `fuel` bounds the number of iterations of the model. -/
def runLoop (route : Nat → Option Nat) (sink : Sink) (running : Nat → Bool) :
    Nat → Nat → Player → List Channel → List Ev → Outcome
  | 0, iter, p, chans, tr =>
    if running iter then Outcome.fuelOut p chans tr
    else drainStep route sink p tr
  | fuel + 1, iter, p, chans, tr =>
    if running iter then
      match loopBody route sink p chans with
      | Except.error fpe => Outcome.panicked fpe.1 fpe.2.1 (tr ++ fpe.2.2)
      | Except.ok r =>
        runLoop route sink running fuel (iter + 1) r.1 (r.2.1) (tr ++ r.2.2)
    else drainStep route sink p tr

/-- `try_run_ext`: open a connection for every required port that exists; a
failing `connect` is returned as an error (the `?` operator in the source);
then run the loop from a fresh player.  The sink's connection map holds
exactly the required ports that exist among the enumerated output ports. -/
def try_run_ext (numPorts : Nat) (requiredPorts : List Nat)
    (connectOk : Nat → Bool) (route : Nat → Option Nat)
    (sendOk : Nat → List Nat → Bool) (running : Nat → Bool) (fuel : Nat)
    (chans : List Channel) : Outcome :=
  match (List.range numPorts).find?
      (fun i => requiredPorts.contains i && !(connectOk i)) with
  | some i => Outcome.err i
  | none =>
    runLoop route
      { hasConn := fun port => decide (port < numPorts) && requiredPorts.contains port
        sendOk := sendOk }
      running fuel 0 Player.new chans []

/-- One scheduler operation, for stating reachability over arbitrary call
sequences on a `Player`. -/
inductive Op where
  | tick
  | poll (chans : List Channel)
  | clearElapsed
  | clearAll
deriving Repr

/-- Apply one operation to a player. -/
def applyOp (p : Player) : Op → Player
  | Op.tick => p.do_tick
  | Op.poll chans => (p.poll_channels chans).player
  | Op.clearElapsed => p.clear_elapsed_notes.1
  | Op.clearAll => p.clear_all_notes.1

/-- The player reached from `Player::new` by a sequence of operations. -/
def runOps (ops : List Op) : Player := ops.foldl applyOp Player.new

/-- Extract a table-insertion entry from a trace event. -/
def insEntry : Ev → Option (Nat × PlayingNote)
  | Ev.insert k r => some (k, r)
  | _ => none

/-- Extract the record of a stop-routing invocation (natural elapse or
shutdown drain) from a trace event. -/
def stopEntry : Ev → Option PlayingNote
  | Ev.routeStop _ r => some r
  | Ev.drainStop _ r => some r
  | _ => none

/-- All records ever inserted into the sounding-note table, per the trace. -/
def insertRecs (evs : List Ev) : List PlayingNote :=
  (evs.filterMap insEntry).map Prod.snd

/-- All records for which a stop event was routed, per the trace. -/
def stopRecs (evs : List Ev) : List PlayingNote :=
  evs.filterMap stopEntry

/-- Whether an outcome is an error returned through the `Result` value of
`try_run_ext` (as opposed to a panic or a normal return). -/
def Outcome.isErr : Outcome → Bool
  | Outcome.err _ => true
  | _ => false

/-- One full loop iteration on the player state alone: poll, advance the
clock, reap (used to state which states the run loop presents to
`poll_channels`). -/
def tickIteration (p : Player) (chans : List Channel) : Player :=
  ((p.poll_channels chans).player.do_tick).clear_elapsed_notes.1

/-- The note of spec Scenario A: pitch 60, duration 2, velocity 100. -/
def scenarioANote : Midi := { pitch := some 60, duration := 2, velocity := 100 }

/-- The Scenario A source: one batch with the single note, then empty batches
forever. -/
def scenarioAChannel : Channel := { script := [some [scenarioANote]], after := some [] }

/-- The Scenario A run: one output port, the routing table maps every source
to destination 0, all sends succeed, and the running flag stays true for
three iterations. -/
def scenarioARun : Outcome :=
  try_run_ext 1 [0] (fun _ => true) (fun _ => some 0) (fun _ _ => true)
    (fun i => decide (i < 3)) 5 [scenarioAChannel]

/-- The record Scenario A admits at tick 0. -/
def scenarioARecord : PlayingNote :=
  { channel_id := 0, start_tick_id := 0, note := scenarioANote }

/-- The trace the model computes for Scenario A. -/
def scenarioATrace : List Ev :=
  [Ev.polled 0 0,
   Ev.insert 1 scenarioARecord,
   Ev.routeStart 0 scenarioARecord,
   Ev.sent 0 0 [0x90, 60, 100],
   Ev.routeStop 2 scenarioARecord,
   Ev.sent 2 0 [0x80, 60, 100],
   Ev.polled 2 0]

/-- A source for the fatal-sink scenario of C4: one batch with a single
one-tick note, then empty batches forever. -/
def sinkFailChannel (pc vel : Nat) : Channel :=
  { script := [some [{ pitch := some pc, duration := 1, velocity := vel }]]
    after := some [] }

/-- The fatal-sink run of C4: no output port exists (`numPorts = 0`), so the
connection map stays empty while the routing table maps the source to
destination 0; the running flag never goes false. -/
def sinkFailRun (pc vel fuel : Nat) : Outcome :=
  try_run_ext 0 [0] (fun _ => true) (fun _ => some 0) (fun _ _ => true)
    (fun _ => true) fuel [sinkFailChannel pc vel]

/-- The send-failure run of C4: one output port, connected at startup, but
every send on it fails; the running flag never goes false. -/
def sendFailRun (pc vel fuel : Nat) : Outcome :=
  try_run_ext 1 [0] (fun _ => true) (fun _ => some 0) (fun _ _ => false)
    (fun _ => true) fuel [sinkFailChannel pc vel]

/-! ### Association-list lemmas for `clear_notes` -/

theorem removeKey_append_of_not_mem (k : Nat) (v : PlayingNote)
    (rest : List (Nat × PlayingNote)) :
    ∀ pre : List (Nat × PlayingNote), k ∉ pre.map Prod.fst →
      removeKey (pre ++ (k, v) :: rest) k = pre ++ rest := by
  intro pre
  induction pre with
  | nil => intro _; simp [removeKey]
  | cons kv pre ih =>
    intro h
    simp only [List.map_cons, List.mem_cons] at h
    push_neg at h
    have hne : (kv.1 == k) = false := by
      simp only [beq_eq_false_iff_ne]
      exact fun e => h.1 e.symm
    simp only [List.cons_append, removeKey, hne, Bool.false_eq_true, if_false,
      List.cons.injEq, true_and]
    exact ih h.2

theorem clearNotesAux_eq (f : PlayingNote → Bool) :
    ∀ (iter pre : List (Nat × PlayingNote)),
      ((pre ++ iter).map Prod.fst).Nodup →
      clearNotesAux f iter (pre ++ iter) =
        (pre ++ iter.filter (fun kv => !(f kv.2)),
         (iter.filter (fun kv => f kv.2)).map Prod.snd) := by
  intro iter
  induction iter with
  | nil => intro pre _; simp [clearNotesAux]
  | cons kv rest ih =>
    intro pre h
    rw [List.map_append, List.map_cons, List.nodup_append] at h
    have hk : kv.1 ∉ pre.map Prod.fst := fun hmem =>
      h.2.2 hmem (List.mem_cons_self _ _)
    have hnd : ((pre ++ rest).map Prod.fst).Nodup := by
      rw [List.map_append, List.nodup_append]
      exact ⟨h.1, (List.nodup_cons.mp h.2.1).2,
        fun a ha ha' => h.2.2 ha (List.mem_cons_of_mem _ ha')⟩
    cases hf : f kv.2 with
    | false =>
      have hiter : pre ++ kv :: rest = (pre ++ [kv]) ++ rest := by simp
      have hnd2 : (((pre ++ [kv]) ++ rest).map Prod.fst).Nodup := by
        rw [← hiter, List.map_append, List.map_cons, List.nodup_append]
        exact h
      have := ih (pre ++ [kv]) hnd2
      rw [← hiter] at this
      simp only [clearNotesAux, hf, Bool.false_eq_true, if_false, this,
        List.filter_cons, hf, Bool.not_false, if_true]
      simp
    | true =>
      have hrm : removeKey (pre ++ kv :: rest) kv.1 = pre ++ rest := by
        have := removeKey_append_of_not_mem kv.1 kv.2 rest pre hk
        simpa using this
      simp only [clearNotesAux, hf, if_true, hrm, ih pre hnd, List.filter_cons, hf,
        Bool.not_true, Bool.false_eq_true, if_false, if_true, List.map_cons]

theorem Player.clear_notes_eq (p : Player) (f : PlayingNote → Bool)
    (h : (p.playing_notes.map Prod.fst).Nodup) :
    p.clear_notes f =
      ({ p with playing_notes := p.playing_notes.filter (fun kv => !(f kv.2)) },
       (p.playing_notes.filter (fun kv => f kv.2)).map Prod.snd) := by
  have := clearNotesAux_eq f p.playing_notes [] (by simpa using h)
  simp only [List.nil_append] at this
  simp [Player.clear_notes, this]

theorem removeKey_sublist (k : Nat) :
    ∀ l : List (Nat × PlayingNote), List.Sublist (removeKey l k) l := by
  intro l
  induction l with
  | nil => simp [removeKey]
  | cons kv rest ih =>
    by_cases hc : (kv.1 == k) = true
    · simp only [removeKey, hc, if_true]
      exact List.sublist_cons_self _ _
    · simp only [removeKey, hc, if_false]
      exact List.Sublist.cons₂ _ ih

theorem clearNotesAux_fst_sublist (f : PlayingNote → Bool) :
    ∀ (iter live : List (Nat × PlayingNote)),
      List.Sublist (clearNotesAux f iter live).1 live := by
  intro iter
  induction iter with
  | nil => intro live; simp [clearNotesAux]
  | cons kv rest ih =>
    intro live
    cases hf : f kv.2 with
    | false => simpa [clearNotesAux, hf] using ih live
    | true =>
      simp only [clearNotesAux, hf, if_true]
      exact List.Sublist.trans (ih (removeKey live kv.1)) (removeKey_sublist kv.1 live)

theorem Player.clear_notes_table_sublist (p : Player) (f : PlayingNote → Bool) :
    List.Sublist (p.clear_notes f).1.playing_notes p.playing_notes :=
  clearNotesAux_fst_sublist f p.playing_notes p.playing_notes

/-! ### Claim C7: the elapsed-note reaper removes exactly the elapsed records -/

/-- Claim C7: for every player state whose table has unique keys (the `HashMap`
invariant), `clear_elapsed_notes` removes exactly the records with
`start_tick_id + duration == tick_id`, returns exactly those records, and
leaves the remaining records (and both counters) unchanged. -/
theorem clear_elapsed_notes_spec (p : Player)
    (h : (p.playing_notes.map Prod.fst).Nodup) :
    (p.clear_elapsed_notes).1.playing_notes =
        p.playing_notes.filter
          (fun kv => !(kv.2.start_tick_id + kv.2.note.duration == p.tick_id)) ∧
    (p.clear_elapsed_notes).2 =
        (p.playing_notes.filter
          (fun kv => kv.2.start_tick_id + kv.2.note.duration == p.tick_id)).map
          Prod.snd ∧
    (p.clear_elapsed_notes).1.tick_id = p.tick_id ∧
    (p.clear_elapsed_notes).1.note_id = p.note_id := by
  unfold Player.clear_elapsed_notes
  rw [Player.clear_notes_eq p _ h]
  simp

/-- Witness for C7 at a concrete two-record table: one record elapses at tick 2,
the other does not. -/
theorem clear_elapsed_notes_spec_witness :
    (((⟨2, 2, [(1, ⟨0, 0, ⟨some 60, 2, 100⟩⟩), (2, ⟨1, 1, ⟨none, 5, 10⟩⟩)]⟩ :
        Player).playing_notes.map Prod.fst).Nodup) ∧
    ((⟨2, 2, [(1, ⟨0, 0, ⟨some 60, 2, 100⟩⟩), (2, ⟨1, 1, ⟨none, 5, 10⟩⟩)]⟩ :
        Player).clear_elapsed_notes).1.playing_notes =
      ((⟨2, 2, [(1, ⟨0, 0, ⟨some 60, 2, 100⟩⟩), (2, ⟨1, 1, ⟨none, 5, 10⟩⟩)]⟩ :
        Player).playing_notes.filter
        (fun kv => !(kv.2.start_tick_id + kv.2.note.duration == 2))) :=
  ⟨by decide,
   (clear_elapsed_notes_spec
     ⟨2, 2, [(1, ⟨0, 0, ⟨some 60, 2, 100⟩⟩), (2, ⟨1, 1, ⟨none, 5, 10⟩⟩)]⟩
     (by decide)).1⟩

/-! ### Claim C9: rest notes are silent -/

/-- Claim C9: a record whose note is a rest (no pitch) routes no bytes to the
output sink, for any event kind, duration and velocity. -/
theorem rest_notes_silent (route : Nat → Option Nat) (sink : Sink)
    (r : PlayingNote) (midi_status : Nat) (h : r.note.u8_maybe = none) :
    route_note route sink r midi_status = Except.ok [] := by
  unfold route_note
  rw [h]

/-- Witness for C9 at a concrete rest record and both event kinds. -/
theorem rest_notes_silent_witness :
    (⟨3, 7, ⟨none, 4, 9⟩⟩ : PlayingNote).note.u8_maybe = none ∧
    route_note (fun _ => some 0) ⟨fun _ => true, fun _ _ => true⟩
      ⟨3, 7, ⟨none, 4, 9⟩⟩ NOTE_OFF_MSG = Except.ok [] :=
  ⟨rfl,
   rest_notes_silent (fun _ => some 0) ⟨fun _ => true, fun _ _ => true⟩
     ⟨3, 7, ⟨none, 4, 9⟩⟩ NOTE_OFF_MSG rfl⟩

/-! ### Claim C5: Scenario A, corrected tick numbering -/

/-- Counterexample for C5 as stated: in the Scenario A run the start event is
sent while the tick counter is 0 (not 1), the stop event while it is 2 (not
3), and the source is re-polled while it is 2 (not 3). -/
theorem scenario_a_counterexample :
    scenarioARun = Outcome.ok ⟨3, 1, []⟩ scenarioATrace ∧
    Ev.sent 1 0 [0x90, 60, 100] ∉ scenarioATrace ∧
    Ev.sent 3 0 [0x80, 60, 100] ∉ scenarioATrace ∧
    Ev.polled 3 0 ∉ scenarioATrace ∧
    Ev.sent 0 0 [0x90, 60, 100] ∈ scenarioATrace ∧
    Ev.sent 2 0 [0x80, 60, 100] ∈ scenarioATrace ∧
    Ev.polled 2 0 ∈ scenarioATrace := by
  refine ⟨by decide, ?_, ?_, ?_, ?_, ?_, ?_⟩ <;> decide

/-- Claim C5 as amended: the Scenario A run sends exactly one start event
`[0x90, 60, 100]`, at tick 0 (the poll preceding the first clock advance); no
further events occur until tick 2, where exactly one stop event
`[0x80, 60, 100]` is sent; and the source is polled again at tick 2, when the
table is empty for it.  The run's whole trace is computed exactly. -/
theorem scenario_a_exact : scenarioARun = Outcome.ok ⟨3, 1, []⟩ scenarioATrace := by
  decide

/-! ### Claim C4: fatal sink conditions panic, bypassing the drain -/

/-- Counterexample for C4 as stated: when the routed destination has no open
connection, the run terminates as a panic (the model's `panicked` outcome,
mirroring the `panic!` in `route_note`), with the sounding record still in
the table and no drain-stop event routed — the error is not returned as the
`Result` value of `try_run_ext` (`isErr` is false). -/
theorem sink_failure_counterexample :
    sinkFailRun 60 100 2 =
      Outcome.panicked (Fatal.noConnection 0)
        ⟨0, 1, [(1, ⟨0, 0, ⟨some 60, 1, 100⟩⟩)]⟩
        [Ev.polled 0 0, Ev.insert 1 ⟨0, 0, ⟨some 60, 1, 100⟩⟩,
         Ev.routeStart 0 ⟨0, 0, ⟨some 60, 1, 100⟩⟩] ∧
    (sinkFailRun 60 100 2).isErr = false := by
  exact ⟨by decide, by decide⟩

/-! The universal form of C4 is proved as `sink_failure_panics` at the end of
the development, after the run-loop lemmas it depends on. -/

/-! ### The batch-admission lemma -/

theorem admit_notes_spec :
    ∀ (notes : List Midi) (p : Player) (ch : Nat),
      ∃ Δ : List (Nat × PlayingNote),
        (Player.admit_notes p ch notes).1.playing_notes = p.playing_notes ++ Δ ∧
        (Player.admit_notes p ch notes).2 =
          Δ.map (fun kv => Ev.insert kv.1 kv.2) ∧
        (Player.admit_notes p ch notes).1.note_id = p.note_id + notes.length ∧
        (Player.admit_notes p ch notes).1.tick_id = p.tick_id ∧
        Δ.map (fun kv => kv.2.note) = notes.filter (fun n => n.duration != 0) ∧
        (∀ kv ∈ Δ, p.note_id < kv.1 ∧
          kv.1 ≤ (Player.admit_notes p ch notes).1.note_id ∧
          kv.2.start_tick_id = p.tick_id ∧ kv.2.channel_id = ch ∧
          kv.2.note.duration ≠ 0) ∧
        (Δ.map Prod.fst).Nodup := by
  intro notes
  induction notes with
  | nil =>
    intro p ch
    exact ⟨[], by simp [Player.admit_notes]⟩
  | cons n rest ih =>
    intro p ch
    cases hd : (n.duration == 0) with
    | true =>
      have hd0 : n.duration = 0 := by simpa using hd
      have hunfold : Player.admit_notes p ch (n :: rest) =
          Player.admit_notes ⟨p.tick_id, p.note_id + 1, p.playing_notes⟩ ch rest := by
        simp [Player.admit_notes, hd]
      obtain ⟨Δ, hT, hE, hN, hK, hF, hkv, hnd⟩ :=
        ih ⟨p.tick_id, p.note_id + 1, p.playing_notes⟩ ch
      rw [hunfold]
      refine ⟨Δ, hT, hE, ?_, hK, ?_, ?_, hnd⟩
      · rw [hN]; simp; omega
      · rw [hF, List.filter_cons]
        simp [hd0]
      · intro kv hmem
        have h1 := hkv kv hmem
        simp only at h1
        exact ⟨by omega, h1.2.1, h1.2.2⟩
    | false =>
      have hd0 : n.duration ≠ 0 := by simpa using hd
      have hunfold : Player.admit_notes p ch (n :: rest) =
          ((Player.admit_notes
              ⟨p.tick_id, p.note_id + 1,
                p.playing_notes ++ [(p.note_id + 1, ⟨ch, p.tick_id, n⟩)]⟩ ch rest).1,
           Ev.insert (p.note_id + 1) ⟨ch, p.tick_id, n⟩ ::
            (Player.admit_notes
              ⟨p.tick_id, p.note_id + 1,
                p.playing_notes ++ [(p.note_id + 1, ⟨ch, p.tick_id, n⟩)]⟩ ch rest).2) := by
        simp [Player.admit_notes, hd]
      obtain ⟨Δ, hT, hE, hN, hK, hF, hkv, hnd⟩ :=
        ih ⟨p.tick_id, p.note_id + 1,
          p.playing_notes ++ [(p.note_id + 1, ⟨ch, p.tick_id, n⟩)]⟩ ch
      simp only at hT hE hN hK hF hkv
      rw [hunfold]
      refine ⟨(p.note_id + 1, ⟨ch, p.tick_id, n⟩) :: Δ, ?_, ?_, ?_, hK, ?_, ?_, ?_⟩
      · simp only [hT]
        simp
      · simp only [hE, List.map_cons]
      · simp only [hN, List.length_cons]
        omega
      · have hpos : (n.duration != 0) = true := by simpa using hd0
        simp only [List.map_cons, hF, List.filter_cons, hpos, if_true]
      · intro kv hmem
        rcases List.mem_cons.mp hmem with he | hm
        · subst he
          refine ⟨by omega, ?_, rfl, rfl, hd0⟩
          simp only [hN]
          omega
        · have h1 := hkv kv hm
          refine ⟨by omega, h1.2.1, h1.2.2.1, h1.2.2.2⟩
      · simp only [List.map_cons, List.nodup_cons]
        refine ⟨?_, hnd⟩
        intro hmem
        obtain ⟨kv, hkvmem, hfst⟩ := List.mem_map.mp hmem
        have := (hkv kv hkvmem).1
        simp only at this
        omega

/-! ### The channel-polling lemma -/

theorem filterMap_insEntry_insert_map (Δ : List (Nat × PlayingNote)) :
    (Δ.map (fun kv => Ev.insert kv.1 kv.2)).filterMap insEntry = Δ := by
  induction Δ with
  | nil => simp
  | cons kv rest ih => simp [insEntry, ih]

theorem filterMap_stopEntry_insert_map (Δ : List (Nat × PlayingNote)) :
    (Δ.map (fun kv => Ev.insert kv.1 kv.2)).filterMap stopEntry = [] := by
  induction Δ with
  | nil => simp
  | cons kv rest ih => simp [stopEntry, ih]

theorem pollChannelsAux_spec :
    ∀ (cs : List Channel) (p : Player) (idx : Nat),
      ∃ Δ : List (Nat × PlayingNote),
        (pollChannelsAux p idx cs).1.playing_notes = p.playing_notes ++ Δ ∧
        (pollChannelsAux p idx cs).1.tick_id = p.tick_id ∧
        p.note_id ≤ (pollChannelsAux p idx cs).1.note_id ∧
        ((pollChannelsAux p idx cs).2.2.filterMap insEntry) = Δ ∧
        ((pollChannelsAux p idx cs).2.2.filterMap stopEntry) = [] ∧
        (∀ kv ∈ Δ, p.note_id < kv.1 ∧
          kv.1 ≤ (pollChannelsAux p idx cs).1.note_id ∧
          kv.2.start_tick_id = p.tick_id ∧ kv.2.note.duration ≠ 0) ∧
        (Δ.map Prod.fst).Nodup := by
  intro cs
  induction cs with
  | nil =>
    intro p idx
    exact ⟨[], by simp [pollChannelsAux]⟩
  | cons c rest ih =>
    intro p idx
    cases hsp : p.should_poll_channel idx with
    | false =>
      have hunfold : pollChannelsAux p idx (c :: rest) =
          ((pollChannelsAux p (idx + 1) rest).1,
           c :: (pollChannelsAux p (idx + 1) rest).2.1,
           (pollChannelsAux p (idx + 1) rest).2.2) := by
        simp [pollChannelsAux, hsp]
      obtain ⟨Δ, hT, hTick, hN, hIns, hStop, hkv, hnd⟩ := ih p (idx + 1)
      rw [hunfold]
      exact ⟨Δ, hT, hTick, hN, hIns, hStop, hkv, hnd⟩
    | true =>
      cases hrc : c.next.1 with
      | none =>
        have hunfold : pollChannelsAux p idx (c :: rest) =
            ((pollChannelsAux p (idx + 1) rest).1,
             c.next.2 :: (pollChannelsAux p (idx + 1) rest).2.1,
             Ev.polled p.tick_id idx :: (pollChannelsAux p (idx + 1) rest).2.2) := by
          simp [pollChannelsAux, hsp, hrc]
        obtain ⟨Δ, hT, hTick, hN, hIns, hStop, hkv, hnd⟩ := ih p (idx + 1)
        rw [hunfold]
        refine ⟨Δ, hT, hTick, hN, ?_, ?_, hkv, hnd⟩
        · simpa [insEntry] using hIns
        · simpa [stopEntry] using hStop
      | some notes =>
        obtain ⟨Δ1, aT, aE, aN, aK, aF, akv, and1⟩ := admit_notes_spec notes p idx
        obtain ⟨Δ2, hT, hTick, hN, hIns, hStop, hkv, hnd⟩ :=
          ih (Player.admit_notes p idx notes).1 (idx + 1)
        have hunfold : pollChannelsAux p idx (c :: rest) =
            ((pollChannelsAux (Player.admit_notes p idx notes).1 (idx + 1) rest).1,
             c.next.2 ::
              (pollChannelsAux (Player.admit_notes p idx notes).1 (idx + 1) rest).2.1,
             Ev.polled p.tick_id idx ::
              ((Player.admit_notes p idx notes).2 ++
               (pollChannelsAux (Player.admit_notes p idx notes).1 (idx + 1) rest).2.2)) := by
          simp [pollChannelsAux, hsp, hrc]
        rw [hunfold]
        dsimp only
        refine ⟨Δ1 ++ Δ2, ?_, ?_, ?_, ?_, ?_, ?_, ?_⟩
        · rw [hT, aT, List.append_assoc]
        · rw [hTick, aK]
        · have := aN
          omega
        · simp only [List.filterMap_cons, insEntry, List.filterMap_append]
          rw [aE, filterMap_insEntry_insert_map, hIns]
        · simp only [List.filterMap_cons, stopEntry, List.filterMap_append]
          rw [aE, filterMap_stopEntry_insert_map, hStop]
          simp
        · intro kv hmem
          rcases List.mem_append.mp hmem with h1 | h2
          · obtain ⟨hgt, hle, hst, _, hdur⟩ := akv kv h1
            exact ⟨hgt, by omega, hst, hdur⟩
          · obtain ⟨hgt, hle, hst, hdur⟩ := hkv kv h2
            refine ⟨by omega, hle, ?_, hdur⟩
            rw [hst, aK]
        · rw [List.map_append, List.nodup_append]
          refine ⟨and1, hnd, ?_⟩
          intro a ha ha'
          obtain ⟨kv1, hm1, hf1⟩ := List.mem_map.mp ha
          obtain ⟨kv2, hm2, hf2⟩ := List.mem_map.mp ha'
          have g1 := (akv kv1 hm1).2.1
          have g2 := (hkv kv2 hm2).1
          omega

theorem Player.clear_notes_tick (p : Player) (f : PlayingNote → Bool) :
    (p.clear_notes f).1.tick_id = p.tick_id := rfl

theorem Player.clear_notes_note (p : Player) (f : PlayingNote → Bool) :
    (p.clear_notes f).1.note_id = p.note_id := rfl

theorem poll_channels_spec (p : Player) (chans : List Channel) :
    ∃ Δ : List (Nat × PlayingNote),
      (p.poll_channels chans).player.playing_notes = p.playing_notes ++ Δ ∧
      (p.poll_channels chans).player.tick_id = p.tick_id ∧
      p.note_id ≤ (p.poll_channels chans).player.note_id ∧
      ((p.poll_channels chans).events.filterMap insEntry) = Δ ∧
      ((p.poll_channels chans).events.filterMap stopEntry) = [] ∧
      (∀ kv ∈ Δ, p.note_id < kv.1 ∧
        kv.1 ≤ (p.poll_channels chans).player.note_id ∧
        kv.2.start_tick_id = p.tick_id ∧ kv.2.note.duration ≠ 0) ∧
      (Δ.map Prod.fst).Nodup ∧
      (p.poll_channels chans).started =
        (p.playing_notes.filter
          (fun kv => kv.2.start_tick_id == p.tick_id)).map Prod.snd ++
        Δ.map Prod.snd := by
  obtain ⟨Δ, hT, hTick, hN, hIns, hStop, hkv, hnd⟩ := pollChannelsAux_spec chans p 0
  refine ⟨Δ, hT, hTick, hN, hIns, hStop, hkv, hnd, ?_⟩
  show ((pollChannelsAux p 0 chans).1.playing_notes.filter
      (fun kv => kv.2.start_tick_id == (pollChannelsAux p 0 chans).1.tick_id)).map
      Prod.snd = _
  rw [hT, hTick, List.filter_append, List.map_append]
  congr 1
  rw [List.filter_eq_self.mpr]
  intro kv hm
  simp [(hkv kv hm).2.2.1]

/-! ### Claim C8: poll returns exactly the newly inserted records -/

/-- Claim C8: at every state the run loop presents to `poll_channels` (every
record in the table started strictly before the current tick), the returned
records are exactly those inserted during the call — an extension `Δ` of the
table, all of whose records start now; and one full loop iteration (poll,
clock advance, reap) re-establishes that precondition. -/
theorem poll_returns_new (p : Player) (chans : List Channel)
    (h : ∀ kv ∈ p.playing_notes, kv.2.start_tick_id < p.tick_id) :
    (∃ Δ : List (Nat × PlayingNote),
      (p.poll_channels chans).player.playing_notes = p.playing_notes ++ Δ ∧
      (p.poll_channels chans).started = Δ.map Prod.snd ∧
      ∀ r ∈ (p.poll_channels chans).started, r.start_tick_id = p.tick_id) ∧
    (∀ kv ∈ (tickIteration p chans).playing_notes,
      kv.2.start_tick_id < (tickIteration p chans).tick_id) := by
  obtain ⟨Δ, hT, hTick, hN, hIns, hStop, hkv, hnd, hStart⟩ := poll_channels_spec p chans
  have holdnil : (p.playing_notes.filter
      (fun kv => kv.2.start_tick_id == p.tick_id)) = [] := by
    rw [List.filter_eq_nil_iff]
    intro kv hm
    have := h kv hm
    simp
    omega
  constructor
  · refine ⟨Δ, hT, ?_, ?_⟩
    · rw [hStart, holdnil]
      simp
    · intro r hr
      rw [hStart, holdnil] at hr
      have hr2 : r ∈ Δ.map Prod.snd := by simpa using hr
      obtain ⟨kv, hkvm, hsnd⟩ := List.mem_map.mp hr2
      rw [← hsnd]
      exact (hkv kv hkvm).2.2.1
  · intro kv hm
    have hsub : kv ∈ ((p.poll_channels chans).player.do_tick).playing_notes := by
      have hs := Player.clear_notes_table_sublist
        ((p.poll_channels chans).player.do_tick)
        (fun note => note.start_tick_id + note.note.duration =
          ((p.poll_channels chans).player.do_tick).tick_id)
      exact hs.subset (by
        simpa [tickIteration, Player.clear_elapsed_notes] using hm)
    have htick2 : (tickIteration p chans).tick_id =
        (p.poll_channels chans).player.tick_id + 1 := by
      simp [tickIteration, Player.clear_elapsed_notes, Player.clear_notes_tick,
        Player.do_tick]
    have hm2 : kv ∈ (p.poll_channels chans).player.playing_notes := by
      simpa [Player.do_tick] using hsub
    rw [hT] at hm2
    rw [htick2, hTick]
    rcases List.mem_append.mp hm2 with h1 | h2
    · have := h kv h1
      omega
    · have := (hkv kv h2).2.2.1
      omega

/-- Witness for C8: a player at tick 1 holding one record started at tick 0,
polled with one source offering a one-tick note. -/
theorem poll_returns_new_witness :
    (∀ kv ∈ (⟨1, 1, [(1, ⟨0, 0, ⟨some 60, 3, 100⟩⟩)]⟩ : Player).playing_notes,
      kv.2.start_tick_id < (⟨1, 1, [(1, ⟨0, 0, ⟨some 60, 3, 100⟩⟩)]⟩ : Player).tick_id) ∧
    ((∃ Δ : List (Nat × PlayingNote),
      ((⟨1, 1, [(1, ⟨0, 0, ⟨some 60, 3, 100⟩⟩)]⟩ : Player).poll_channels
        [⟨[some [⟨some 5, 1, 9⟩]], none⟩]).player.playing_notes =
          (⟨1, 1, [(1, ⟨0, 0, ⟨some 60, 3, 100⟩⟩)]⟩ : Player).playing_notes ++ Δ ∧
      ((⟨1, 1, [(1, ⟨0, 0, ⟨some 60, 3, 100⟩⟩)]⟩ : Player).poll_channels
        [⟨[some [⟨some 5, 1, 9⟩]], none⟩]).started = Δ.map Prod.snd ∧
      ∀ r ∈ ((⟨1, 1, [(1, ⟨0, 0, ⟨some 60, 3, 100⟩⟩)]⟩ : Player).poll_channels
        [⟨[some [⟨some 5, 1, 9⟩]], none⟩]).started,
          r.start_tick_id = (⟨1, 1, [(1, ⟨0, 0, ⟨some 60, 3, 100⟩⟩)]⟩ : Player).tick_id) ∧
    (∀ kv ∈ (tickIteration ⟨1, 1, [(1, ⟨0, 0, ⟨some 60, 3, 100⟩⟩)]⟩
        [⟨[some [⟨some 5, 1, 9⟩]], none⟩]).playing_notes,
      kv.2.start_tick_id < (tickIteration ⟨1, 1, [(1, ⟨0, 0, ⟨some 60, 3, 100⟩⟩)]⟩
        [⟨[some [⟨some 5, 1, 9⟩]], none⟩]).tick_id)) :=
  ⟨by decide,
   poll_returns_new ⟨1, 1, [(1, ⟨0, 0, ⟨some 60, 3, 100⟩⟩)]⟩
     [⟨[some [⟨some 5, 1, 9⟩]], none⟩] (by decide)⟩

/-! ### Claim C3: zero-duration notes never sound, yet consume an identifier -/

/-- Claim C3: admitting a batch advances the note-identifier counter by the
batch length (zero-duration notes included), inserts exactly the records of
the notes with nonzero duration, and keeps the table free of zero-duration
records — hence `poll_channels` never returns a zero-duration record for
start-event routing. -/
theorem zero_duration_notes (p : Player) (ch : Nat) (notes : List Midi)
    (chans : List Channel)
    (h : ∀ kv ∈ p.playing_notes, kv.2.note.duration ≠ 0) :
    (Player.admit_notes p ch notes).1.note_id = p.note_id + notes.length ∧
    (∃ Δ : List (Nat × PlayingNote),
      (Player.admit_notes p ch notes).1.playing_notes = p.playing_notes ++ Δ ∧
      Δ.map (fun kv => kv.2.note) = notes.filter (fun n => n.duration != 0)) ∧
    (∀ kv ∈ (Player.admit_notes p ch notes).1.playing_notes,
      kv.2.note.duration ≠ 0) ∧
    (∀ r ∈ (p.poll_channels chans).started, r.note.duration ≠ 0) := by
  obtain ⟨Δ, aT, aE, aN, aK, aF, akv, and1⟩ := admit_notes_spec notes p ch
  refine ⟨aN, ⟨Δ, aT, aF⟩, ?_, ?_⟩
  · intro kv hm
    rw [aT] at hm
    rcases List.mem_append.mp hm with h1 | h2
    · exact h kv h1
    · exact (akv kv h2).2.2.2.2
  · obtain ⟨Δ2, hT, hTick, hN, hIns, hStop, hkv, hnd, hStart⟩ :=
      poll_channels_spec p chans
    intro r hr
    rw [hStart] at hr
    rcases List.mem_append.mp hr with h1 | h2
    · obtain ⟨kv, hkvm, hsnd⟩ := List.mem_map.mp h1
      rw [← hsnd]
      exact h kv (List.mem_filter.mp hkvm).1
    · obtain ⟨kv, hkvm, hsnd⟩ := List.mem_map.mp h2
      rw [← hsnd]
      exact (hkv kv hkvm).2.2.2

/-- Witness for C3: an empty-table player admits a batch holding one
zero-duration note and one sounding note. -/
theorem zero_duration_notes_witness :
    (∀ kv ∈ Player.new.playing_notes, kv.2.note.duration ≠ 0) ∧
    ((Player.admit_notes Player.new 0
        [⟨some 60, 0, 100⟩, ⟨some 62, 1, 90⟩]).1.note_id =
      Player.new.note_id + 2 ∧
    (∃ Δ : List (Nat × PlayingNote),
      (Player.admit_notes Player.new 0
          [⟨some 60, 0, 100⟩, ⟨some 62, 1, 90⟩]).1.playing_notes =
        Player.new.playing_notes ++ Δ ∧
      Δ.map (fun kv => kv.2.note) =
        [⟨some 60, 0, 100⟩, ⟨some 62, 1, 90⟩].filter (fun n => n.duration != 0)) ∧
    (∀ kv ∈ (Player.admit_notes Player.new 0
        [⟨some 60, 0, 100⟩, ⟨some 62, 1, 90⟩]).1.playing_notes,
      kv.2.note.duration ≠ 0) ∧
    (∀ r ∈ (Player.new.poll_channels
        [⟨[some [⟨some 60, 0, 100⟩]], none⟩]).started, r.note.duration ≠ 0)) :=
  ⟨by decide,
   zero_duration_notes Player.new 0 [⟨some 60, 0, 100⟩, ⟨some 62, 1, 90⟩]
     [⟨[some [⟨some 60, 0, 100⟩]], none⟩] (by decide)⟩

/-! ### Claim C2: single-flight per source -/

theorem pollChannelsAux_events_ge :
    ∀ (cs : List Channel) (p : Player) (idx : Nat),
      (∀ t j, Ev.polled t j ∈ (pollChannelsAux p idx cs).2.2 → idx ≤ j) ∧
      (∀ k r, Ev.insert k r ∈ (pollChannelsAux p idx cs).2.2 →
        idx ≤ r.channel_id) := by
  intro cs
  induction cs with
  | nil => intro p idx; simp [pollChannelsAux]
  | cons c rest ih =>
    intro p idx
    cases hsp : p.should_poll_channel idx with
    | false =>
      have hunfold : pollChannelsAux p idx (c :: rest) =
          ((pollChannelsAux p (idx + 1) rest).1,
           c :: (pollChannelsAux p (idx + 1) rest).2.1,
           (pollChannelsAux p (idx + 1) rest).2.2) := by
        simp [pollChannelsAux, hsp]
      rw [hunfold]
      exact ⟨fun t j hm => le_trans (Nat.le_succ idx) ((ih p (idx + 1)).1 t j hm),
        fun k r hm => le_trans (Nat.le_succ idx) ((ih p (idx + 1)).2 k r hm)⟩
    | true =>
      cases hrc : c.next.1 with
      | none =>
        have hunfold : pollChannelsAux p idx (c :: rest) =
            ((pollChannelsAux p (idx + 1) rest).1,
             c.next.2 :: (pollChannelsAux p (idx + 1) rest).2.1,
             Ev.polled p.tick_id idx :: (pollChannelsAux p (idx + 1) rest).2.2) := by
          simp [pollChannelsAux, hsp, hrc]
        rw [hunfold]
        constructor
        · intro t j hm
          rcases List.mem_cons.mp hm with he | hm2
          · injection he with h1 h2; omega
          · exact le_trans (Nat.le_succ idx) ((ih p (idx + 1)).1 t j hm2)
        · intro k r hm
          rcases List.mem_cons.mp hm with he | hm2
          · exact absurd he (by simp)
          · exact le_trans (Nat.le_succ idx) ((ih p (idx + 1)).2 k r hm2)
      | some notes =>
        obtain ⟨Δ1, aT, aE, aN, aK, aF, akv, and1⟩ := admit_notes_spec notes p idx
        have hunfold : pollChannelsAux p idx (c :: rest) =
            ((pollChannelsAux (Player.admit_notes p idx notes).1 (idx + 1) rest).1,
             c.next.2 ::
              (pollChannelsAux (Player.admit_notes p idx notes).1 (idx + 1) rest).2.1,
             Ev.polled p.tick_id idx ::
              ((Player.admit_notes p idx notes).2 ++
               (pollChannelsAux (Player.admit_notes p idx notes).1
                 (idx + 1) rest).2.2)) := by
          simp [pollChannelsAux, hsp, hrc]
        rw [hunfold]
        constructor
        · intro t j hm
          rcases List.mem_cons.mp hm with he | hm2
          · injection he with h1 h2; omega
          · rcases List.mem_append.mp hm2 with ha | ht
            · rw [aE] at ha
              obtain ⟨kv, _, habs⟩ := List.mem_map.mp ha
              exact absurd habs (by simp)
            · exact le_trans (Nat.le_succ idx)
                ((ih (Player.admit_notes p idx notes).1 (idx + 1)).1 t j ht)
        · intro k r hm
          rcases List.mem_cons.mp hm with he | hm2
          · exact absurd he (by simp)
          · rcases List.mem_append.mp hm2 with ha | ht
            · rw [aE] at ha
              obtain ⟨kv, hkvm, habs⟩ := List.mem_map.mp ha
              have hch := (akv kv hkvm).2.2.2.1
              injection habs with h1 h2
              rw [← h2, hch]
            · exact le_trans (Nat.le_succ idx)
                ((ih (Player.admit_notes p idx notes).1 (idx + 1)).2 k r ht)

theorem pollChannelsAux_skip (i : Nat) :
    ∀ (cs : List Channel) (p : Player) (idx : Nat),
      (∃ kv ∈ p.playing_notes, kv.2.channel_id = i) → idx ≤ i →
      ((pollChannelsAux p idx cs).2.1[i - idx]? = cs[i - idx]?) ∧
      (∀ t, Ev.polled t i ∉ (pollChannelsAux p idx cs).2.2) ∧
      (∀ k r, Ev.insert k r ∈ (pollChannelsAux p idx cs).2.2 →
        r.channel_id ≠ i) := by
  intro cs
  induction cs with
  | nil =>
    intro p idx _ _
    simp [pollChannelsAux]
  | cons c rest ih =>
    intro p idx hex hle
    by_cases hidx : idx = i
    · subst hidx
      have hsp : p.should_poll_channel idx = false := by
        obtain ⟨kv, hm, hc⟩ := hex
        simp only [Player.should_poll_channel, beq_eq_false_iff_ne]
        intro h0
        rw [List.countP_eq_zero] at h0
        exact h0 kv hm (by simp [hc])
      have hunfold : pollChannelsAux p idx (c :: rest) =
          ((pollChannelsAux p (idx + 1) rest).1,
           c :: (pollChannelsAux p (idx + 1) rest).2.1,
           (pollChannelsAux p (idx + 1) rest).2.2) := by
        simp [pollChannelsAux, hsp]
      rw [hunfold]
      refine ⟨by simp [Nat.sub_self], ?_, ?_⟩
      · intro t hm
        have := (pollChannelsAux_events_ge rest p (idx + 1)).1 t idx hm
        omega
      · intro k r hm hch
        have := (pollChannelsAux_events_ge rest p (idx + 1)).2 k r hm
        omega
    · have hlt : idx < i := lt_of_le_of_ne hle hidx
      have hsub : i - idx = (i - (idx + 1)) + 1 := by omega
      cases hsp : p.should_poll_channel idx with
      | false =>
        have hunfold : pollChannelsAux p idx (c :: rest) =
            ((pollChannelsAux p (idx + 1) rest).1,
             c :: (pollChannelsAux p (idx + 1) rest).2.1,
             (pollChannelsAux p (idx + 1) rest).2.2) := by
          simp [pollChannelsAux, hsp]
        rw [hunfold]
        obtain ⟨hch, hpol, hins⟩ := ih p (idx + 1) hex (by omega)
        refine ⟨?_, hpol, hins⟩
        rw [hsub]
        simpa using hch
      | true =>
        cases hrc : c.next.1 with
        | none =>
          have hunfold : pollChannelsAux p idx (c :: rest) =
              ((pollChannelsAux p (idx + 1) rest).1,
               c.next.2 :: (pollChannelsAux p (idx + 1) rest).2.1,
               Ev.polled p.tick_id idx ::
                (pollChannelsAux p (idx + 1) rest).2.2) := by
            simp [pollChannelsAux, hsp, hrc]
          rw [hunfold]
          obtain ⟨hch, hpol, hins⟩ := ih p (idx + 1) hex (by omega)
          refine ⟨?_, ?_, ?_⟩
          · rw [hsub]
            simpa using hch
          · intro t hm
            rcases List.mem_cons.mp hm with he | hm2
            · injection he with h1 h2; omega
            · exact hpol t hm2
          · intro k r hm
            rcases List.mem_cons.mp hm with he | hm2
            · exact absurd he (by simp)
            · exact hins k r hm2
        | some notes =>
          obtain ⟨Δ1, aT, aE, aN, aK, aF, akv, and1⟩ := admit_notes_spec notes p idx
          have hex2 : ∃ kv ∈ (Player.admit_notes p idx notes).1.playing_notes,
              kv.2.channel_id = i := by
            obtain ⟨kv, hm, hc⟩ := hex
            exact ⟨kv, by rw [aT]; exact List.mem_append_left _ hm, hc⟩
          have hunfold : pollChannelsAux p idx (c :: rest) =
              ((pollChannelsAux (Player.admit_notes p idx notes).1
                  (idx + 1) rest).1,
               c.next.2 ::
                (pollChannelsAux (Player.admit_notes p idx notes).1
                  (idx + 1) rest).2.1,
               Ev.polled p.tick_id idx ::
                ((Player.admit_notes p idx notes).2 ++
                 (pollChannelsAux (Player.admit_notes p idx notes).1
                   (idx + 1) rest).2.2)) := by
            simp [pollChannelsAux, hsp, hrc]
          rw [hunfold]
          obtain ⟨hch, hpol, hins⟩ :=
            ih (Player.admit_notes p idx notes).1 (idx + 1) hex2 (by omega)
          refine ⟨?_, ?_, ?_⟩
          · rw [hsub]
            simpa using hch
          · intro t hm
            rcases List.mem_cons.mp hm with he | hm2
            · injection he with h1 h2; omega
            · rcases List.mem_append.mp hm2 with ha | ht
              · rw [aE] at ha
                obtain ⟨kv, _, habs⟩ := List.mem_map.mp ha
                exact absurd habs (by simp)
              · exact hpol t ht
          · intro k r hm
            rcases List.mem_cons.mp hm with he | hm2
            · exact absurd he (by simp)
            · rcases List.mem_append.mp hm2 with ha | ht
              · rw [aE] at ha
                obtain ⟨kv, hkvm, habs⟩ := List.mem_map.mp ha
                have hc := (akv kv hkvm).2.2.2.1
                injection habs with h1 h2
                rw [← h2, hc]
                omega
              · exact hins k r ht

/-- Claim C2: a source with at least one sounding record in the table is not
polled by `poll_channels`: its channel state is left untouched, no poll of it
is recorded, and no record is inserted on its behalf. -/
theorem single_flight (p : Player) (chans : List Channel) (i : Nat)
    (h : ∃ kv ∈ p.playing_notes, kv.2.channel_id = i) :
    (p.poll_channels chans).channels[i]? = chans[i]? ∧
    (∀ t, Ev.polled t i ∉ (p.poll_channels chans).events) ∧
    (∀ k r, Ev.insert k r ∈ (p.poll_channels chans).events →
      r.channel_id ≠ i) := by
  have := pollChannelsAux_skip i chans p 0 h (Nat.zero_le i)
  simpa [Player.poll_channels] using this

/-- Witness for C2: a player whose table holds a record for source 0 is polled
with a one-source list; the source is skipped. -/
theorem single_flight_witness :
    (∃ kv ∈ (⟨1, 1, [(1, ⟨0, 0, ⟨some 60, 3, 100⟩⟩)]⟩ : Player).playing_notes,
      kv.2.channel_id = 0) ∧
    (((⟨1, 1, [(1, ⟨0, 0, ⟨some 60, 3, 100⟩⟩)]⟩ : Player).poll_channels
        [⟨[some [⟨some 5, 1, 9⟩]], none⟩]).channels[0]? =
      ([⟨[some [⟨some 5, 1, 9⟩]], none⟩] : List Channel)[0]? ∧
    (∀ t, Ev.polled t 0 ∉
      ((⟨1, 1, [(1, ⟨0, 0, ⟨some 60, 3, 100⟩⟩)]⟩ : Player).poll_channels
        [⟨[some [⟨some 5, 1, 9⟩]], none⟩]).events) ∧
    (∀ k r, Ev.insert k r ∈
      ((⟨1, 1, [(1, ⟨0, 0, ⟨some 60, 3, 100⟩⟩)]⟩ : Player).poll_channels
        [⟨[some [⟨some 5, 1, 9⟩]], none⟩]).events → r.channel_id ≠ 0)) :=
  ⟨⟨(1, ⟨0, 0, ⟨some 60, 3, 100⟩⟩), by decide, rfl⟩,
   single_flight ⟨1, 1, [(1, ⟨0, 0, ⟨some 60, 3, 100⟩⟩)]⟩
     [⟨[some [⟨some 5, 1, 9⟩]], none⟩] 0
     ⟨(1, ⟨0, 0, ⟨some 60, 3, 100⟩⟩), by decide, rfl⟩⟩

/-! ### Reachable-state invariants -/

theorem applyOp_good (p : Player) (o : Op)
    (hnd : (p.playing_notes.map Prod.fst).Nodup)
    (hb : ∀ kv ∈ p.playing_notes,
      kv.2.start_tick_id ≤ p.tick_id ∧ kv.1 ≤ p.note_id) :
    ((applyOp p o).playing_notes.map Prod.fst).Nodup ∧
    ∀ kv ∈ (applyOp p o).playing_notes,
      kv.2.start_tick_id ≤ (applyOp p o).tick_id ∧
      kv.1 ≤ (applyOp p o).note_id := by
  cases o with
  | tick =>
    refine ⟨hnd, ?_⟩
    intro kv hm
    have := hb kv hm
    simp only [applyOp, Player.do_tick] at *
    omega
  | poll chans =>
    obtain ⟨Δ, hT, hTick, hN, hIns, hStop, hkv, hΔnd, hStart⟩ :=
      poll_channels_spec p chans
    constructor
    · show (((p.poll_channels chans).player).playing_notes.map Prod.fst).Nodup
      rw [hT, List.map_append, List.nodup_append]
      refine ⟨hnd, hΔnd, ?_⟩
      intro a ha ha'
      obtain ⟨kv1, hm1, hf1⟩ := List.mem_map.mp ha
      obtain ⟨kv2, hm2, hf2⟩ := List.mem_map.mp ha'
      have g1 := (hb kv1 hm1).2
      have g2 := (hkv kv2 hm2).1
      omega
    · intro kv hm
      show kv.2.start_tick_id ≤ ((p.poll_channels chans).player).tick_id ∧
        kv.1 ≤ ((p.poll_channels chans).player).note_id
      rw [hTick]
      have hm2 : kv ∈ p.playing_notes ++ Δ := by
        rw [← hT]; exact hm
      rcases List.mem_append.mp hm2 with h1 | h2
      · have := hb kv h1
        omega
      · obtain ⟨hgt, hle, hst, _⟩ := hkv kv h2
        omega
  | clearElapsed =>
    have hs := Player.clear_notes_table_sublist p
      (fun note => note.start_tick_id + note.note.duration == p.tick_id)
    refine ⟨((hs.map Prod.fst).nodup hnd), ?_⟩
    intro kv hm
    exact hb kv (hs.subset hm)
  | clearAll =>
    have hs := Player.clear_notes_table_sublist p (fun _ => true)
    refine ⟨((hs.map Prod.fst).nodup hnd), ?_⟩
    intro kv hm
    exact hb kv (hs.subset hm)

theorem foldl_applyOp_good :
    ∀ (ops : List Op) (p : Player),
      (p.playing_notes.map Prod.fst).Nodup →
      (∀ kv ∈ p.playing_notes,
        kv.2.start_tick_id ≤ p.tick_id ∧ kv.1 ≤ p.note_id) →
      (((ops.foldl applyOp p).playing_notes.map Prod.fst).Nodup ∧
       ∀ kv ∈ (ops.foldl applyOp p).playing_notes,
        kv.2.start_tick_id ≤ (ops.foldl applyOp p).tick_id ∧
        kv.1 ≤ (ops.foldl applyOp p).note_id) := by
  intro ops
  induction ops with
  | nil => intro p hnd hb; exact ⟨hnd, hb⟩
  | cons o rest ih =>
    intro p hnd hb
    have := applyOp_good p o hnd hb
    exact ih (applyOp p o) this.1 this.2

theorem runOps_good (ops : List Op) :
    (((runOps ops).playing_notes.map Prod.fst).Nodup ∧
     ∀ kv ∈ (runOps ops).playing_notes,
      kv.2.start_tick_id ≤ (runOps ops).tick_id ∧
      kv.1 ≤ (runOps ops).note_id) :=
  foldl_applyOp_good ops Player.new (by simp [Player.new]) (by simp [Player.new])

/-! ### Claim C10: table bounds in every reachable state -/

/-- Claim C10: in every state reachable from `Player::new` by `do_tick`,
`poll_channels`, `clear_elapsed_notes` and `clear_all_notes` calls, every
record's start tick is at most the tick counter and every key is at most the
note-identifier counter. -/
theorem table_bounds (ops : List Op) :
    ∀ kv ∈ (runOps ops).playing_notes,
      kv.2.start_tick_id ≤ (runOps ops).tick_id ∧
      kv.1 ≤ (runOps ops).note_id :=
  (runOps_good ops).2

/-- Witness for C10: polling a fresh player and advancing the clock leaves one
record with start tick 0 ≤ 1 and key 1 ≤ 1. -/
theorem table_bounds_witness :
    ((1, ⟨0, 0, ⟨some 60, 2, 100⟩⟩) : Nat × PlayingNote) ∈
      (runOps [Op.poll [⟨[some [⟨some 60, 2, 100⟩]], none⟩], Op.tick]).playing_notes ∧
    (((1, ⟨0, 0, ⟨some 60, 2, 100⟩⟩) : Nat × PlayingNote).2.start_tick_id ≤
      (runOps [Op.poll [⟨[some [⟨some 60, 2, 100⟩]], none⟩], Op.tick]).tick_id ∧
     ((1, ⟨0, 0, ⟨some 60, 2, 100⟩⟩) : Nat × PlayingNote).1 ≤
      (runOps [Op.poll [⟨[some [⟨some 60, 2, 100⟩]], none⟩], Op.tick]).note_id) :=
  ⟨by decide,
   table_bounds [Op.poll [⟨[some [⟨some 60, 2, 100⟩]], none⟩], Op.tick]
     (1, ⟨0, 0, ⟨some 60, 2, 100⟩⟩) (by decide)⟩

/-! ### Claim C6: monotone counters, identifiers never reused -/

/-- Claim C6: no operation decreases the tick or note-identifier counter;
`do_tick` increases the tick counter by exactly 1 and leaves the
note-identifier counter alone; each note offered to `admit_notes` (discarded
zero-duration notes included) advances the note-identifier counter by exactly
1; in every reachable state the table keys are pairwise distinct and bounded
by the note-identifier counter; and every key freshly inserted by a batch is
strictly greater than the note-identifier counter before the batch, so no
identifier is ever reused. -/
theorem counters_monotone :
    (∀ (p : Player) (o : Op), p.tick_id ≤ (applyOp p o).tick_id ∧
      p.note_id ≤ (applyOp p o).note_id) ∧
    (∀ p : Player, (applyOp p Op.tick).tick_id = p.tick_id + 1 ∧
      (applyOp p Op.tick).note_id = p.note_id) ∧
    (∀ (p : Player) (ch : Nat) (notes : List Midi),
      (Player.admit_notes p ch notes).1.note_id = p.note_id + notes.length) ∧
    (∀ ops : List Op, ((runOps ops).playing_notes.map Prod.fst).Nodup ∧
      ∀ kv ∈ (runOps ops).playing_notes, kv.1 ≤ (runOps ops).note_id) ∧
    (∀ (p : Player) (ch : Nat) (notes : List Midi) (kv : Nat × PlayingNote),
      kv ∈ (Player.admit_notes p ch notes).1.playing_notes →
      kv ∉ p.playing_notes → p.note_id < kv.1) := by
  refine ⟨?_, ?_, ?_, ?_, ?_⟩
  · intro p o
    cases o with
    | tick => exact ⟨Nat.le_succ _, le_refl _⟩
    | poll chans =>
      obtain ⟨Δ, hT, hTick, hN, _⟩ := poll_channels_spec p chans
      exact ⟨le_of_eq hTick.symm, hN⟩
    | clearElapsed => exact ⟨le_refl _, le_refl _⟩
    | clearAll => exact ⟨le_refl _, le_refl _⟩
  · intro p
    exact ⟨rfl, rfl⟩
  · intro p ch notes
    obtain ⟨Δ, _, _, aN, _⟩ := admit_notes_spec notes p ch
    exact aN
  · intro ops
    exact ⟨(runOps_good ops).1, fun kv hm => ((runOps_good ops).2 kv hm).2⟩
  · intro p ch notes kv hm hnm
    obtain ⟨Δ, aT, _, _, _, _, akv, _⟩ := admit_notes_spec notes p ch
    rw [aT] at hm
    rcases List.mem_append.mp hm with h1 | h2
    · exact absurd h1 hnm
    · exact (akv kv h2).1

/-- Witness for C6: `do_tick` on a fresh player, and a fresh key strictly
above the previous note-identifier counter. -/
theorem counters_monotone_witness :
    ((applyOp Player.new Op.tick).tick_id = Player.new.tick_id + 1 ∧
     (applyOp Player.new Op.tick).note_id = Player.new.note_id) ∧
    (⟨0, 5, []⟩ : Player).note_id <
      ((6, ⟨0, 0, ⟨some 60, 1, 100⟩⟩) : Nat × PlayingNote).1 :=
  ⟨counters_monotone.2.1 Player.new,
   counters_monotone.2.2.2.2 ⟨0, 5, []⟩ 0 [⟨some 60, 1, 100⟩]
     (6, ⟨0, 0, ⟨some 60, 1, 100⟩⟩) (by decide) (by decide)⟩

/-! ### Routing and run-loop lemmas for the exactly-once-stop invariant -/

theorem insertRecs_append (a b : List Ev) :
    insertRecs (a ++ b) = insertRecs a ++ insertRecs b := by
  simp [insertRecs, List.filterMap_append]

theorem stopRecs_append (a b : List Ev) :
    stopRecs (a ++ b) = stopRecs a ++ stopRecs b := by
  simp [stopRecs, List.filterMap_append]

theorem routeMany_ok_filterMap {α : Type} (route : Nat → Option Nat)
    (sink : Sink) (status tick : Nat) (mk : PlayingNote → Ev) (g : Ev → Option α)
    (hg : ∀ t pt b, g (Ev.sent t pt b) = none) :
    ∀ (recs : List PlayingNote) (evs : List Ev),
      routeMany route sink status tick mk recs = Except.ok evs →
      evs.filterMap g = recs.filterMap (fun r => g (mk r)) := by
  intro recs
  induction recs with
  | nil =>
    intro evs h
    simp only [routeMany] at h
    injection h with h
    subst h
    simp
  | cons r rest ih =>
    intro evs h
    cases h1 : route_note route sink r status with
    | error f =>
      have hu : routeMany route sink status tick mk (r :: rest) =
          Except.error (f, [mk r]) := by
        simp [routeMany, h1]
      rw [hu] at h
      exact absurd h (by simp)
    | ok sends =>
      cases h2 : routeMany route sink status tick mk rest with
      | error fe =>
        have hu : routeMany route sink status tick mk (r :: rest) =
            Except.error (fe.1,
              (mk r :: sends.map (fun pb => Ev.sent tick pb.1 pb.2)) ++ fe.2) := by
          simp [routeMany, h1, h2]
        rw [hu] at h
        exact absurd h (by simp)
      | ok evs2 =>
        have hu : routeMany route sink status tick mk (r :: rest) =
            Except.ok ((mk r :: sends.map (fun pb => Ev.sent tick pb.1 pb.2))
              ++ evs2) := by
          simp [routeMany, h1, h2]
        rw [hu] at h
        injection h with h
        subst h
        have hsent : (sends.map fun pb => Ev.sent tick pb.1 pb.2).filterMap g
            = [] := by
          rw [List.filterMap_eq_nil_iff]
          intro a ha
          obtain ⟨pb, _, hpb⟩ := List.mem_map.mp ha
          rw [← hpb]
          exact hg tick pb.1 pb.2
        rw [List.filterMap_append, List.filterMap_cons, ih evs2 h2,
          List.filterMap_cons, hsent]
        cases hc : g (mk r) <;> simp [hc]

theorem Player.clear_all_notes_eq (p : Player)
    (hnd : (p.playing_notes.map Prod.fst).Nodup) :
    p.clear_all_notes =
      ({ p with playing_notes := [] }, p.playing_notes.map Prod.snd) := by
  unfold Player.clear_all_notes
  rw [Player.clear_notes_eq p _ hnd]
  simp

theorem drainStep_ok_balance (route : Nat → Option Nat) (sink : Sink)
    (p : Player) (tr : List Ev) (pf : Player) (trf : List Ev)
    (hok : drainStep route sink p tr = Outcome.ok pf trf)
    (hnd : (p.playing_notes.map Prod.fst).Nodup)
    (hbal : List.Perm (insertRecs tr)
      (stopRecs tr ++ p.playing_notes.map Prod.snd)) :
    List.Perm (insertRecs trf) (stopRecs trf) ∧ pf.playing_notes = [] := by
  unfold drainStep at hok
  rw [Player.clear_all_notes_eq p hnd] at hok
  dsimp only at hok
  cases hrm : routeMany route sink NOTE_OFF_MSG p.tick_id
      (Ev.drainStop p.tick_id) (p.playing_notes.map Prod.snd) with
  | error fe =>
    rw [hrm] at hok
    exact absurd hok (by simp)
  | ok evs =>
    rw [hrm] at hok
    have hpf : pf = { p with playing_notes := [] } := by
      injection hok with h1 h2
      exact h1.symm
    have htrf : trf = tr ++ evs := by
      injection hok with h1 h2
      exact h2.symm
    have hins : insertRecs evs = [] := by
      have := routeMany_ok_filterMap route sink NOTE_OFF_MSG p.tick_id
        (Ev.drainStop p.tick_id) insEntry (fun _ _ _ => rfl)
        (p.playing_notes.map Prod.snd) evs hrm
      simp only [insEntry] at this
      simp [insertRecs, this]
    have hstop : stopRecs evs = p.playing_notes.map Prod.snd := by
      have := routeMany_ok_filterMap route sink NOTE_OFF_MSG p.tick_id
        (Ev.drainStop p.tick_id) stopEntry (fun _ _ _ => rfl)
        (p.playing_notes.map Prod.snd) evs hrm
      simp only [stopEntry] at this
      simpa [stopRecs] using this
    subst hpf htrf
    refine ⟨?_, rfl⟩
    rw [insertRecs_append, stopRecs_append, hins, hstop, List.append_nil]
    exact hbal

theorem loopBody_ok_spec (route : Nat → Option Nat) (sink : Sink)
    (p p2 : Player) (chans chans2 : List Channel) (evs : List Ev)
    (hok : loopBody route sink p chans = Except.ok (p2, chans2, evs))
    (hnd : (p.playing_notes.map Prod.fst).Nodup)
    (hb : ∀ kv ∈ p.playing_notes,
      kv.2.start_tick_id ≤ p.tick_id ∧ kv.1 ≤ p.note_id) :
    ((p2.playing_notes.map Prod.fst).Nodup) ∧
    (∀ kv ∈ p2.playing_notes,
      kv.2.start_tick_id ≤ p2.tick_id ∧ kv.1 ≤ p2.note_id) ∧
    List.Perm (insertRecs evs ++ p.playing_notes.map Prod.snd)
      (stopRecs evs ++ p2.playing_notes.map Prod.snd) := by
  obtain ⟨Δ, hT, hTick, hN, hIns, hStop, hkv, hΔnd, hStart⟩ :=
    poll_channels_spec p chans
  have g1 : (((p.poll_channels chans).player).playing_notes.map Prod.fst).Nodup ∧
      ∀ kv ∈ ((p.poll_channels chans).player).playing_notes,
        kv.2.start_tick_id ≤ ((p.poll_channels chans).player).tick_id ∧
        kv.1 ≤ ((p.poll_channels chans).player).note_id :=
    applyOp_good p (Op.poll chans) hnd hb
  have g2 : ((((p.poll_channels chans).player).do_tick).playing_notes.map
        Prod.fst).Nodup ∧
      ∀ kv ∈ (((p.poll_channels chans).player).do_tick).playing_notes,
        kv.2.start_tick_id ≤ (((p.poll_channels chans).player).do_tick).tick_id ∧
        kv.1 ≤ (((p.poll_channels chans).player).do_tick).note_id :=
    applyOp_good ((p.poll_channels chans).player) Op.tick g1.1 g1.2
  have g3 : (((((p.poll_channels chans).player).do_tick).clear_elapsed_notes).1.playing_notes.map
        Prod.fst).Nodup ∧
      ∀ kv ∈ ((((p.poll_channels chans).player).do_tick).clear_elapsed_notes).1.playing_notes,
        kv.2.start_tick_id ≤
          ((((p.poll_channels chans).player).do_tick).clear_elapsed_notes).1.tick_id ∧
        kv.1 ≤ ((((p.poll_channels chans).player).do_tick).clear_elapsed_notes).1.note_id :=
    applyOp_good (((p.poll_channels chans).player).do_tick) Op.clearElapsed g2.1 g2.2
  simp only [loopBody] at hok
  cases hrm1 : routeMany route sink NOTE_ON_MSG
      ((p.poll_channels chans).player).tick_id
      (Ev.routeStart ((p.poll_channels chans).player).tick_id)
      ((p.poll_channels chans).started) with
  | error fe =>
    rw [hrm1] at hok
    exact absurd hok (by simp)
  | ok startEvs =>
    rw [hrm1] at hok
    cases hrm2 : routeMany route sink NOTE_OFF_MSG
        ((((p.poll_channels chans).player).do_tick).clear_elapsed_notes).1.tick_id
        (Ev.routeStop
          ((((p.poll_channels chans).player).do_tick).clear_elapsed_notes).1.tick_id)
        ((((p.poll_channels chans).player).do_tick).clear_elapsed_notes).2 with
    | error fe =>
      rw [hrm2] at hok
      exact absurd hok (by simp)
    | ok stopEvs =>
      rw [hrm2] at hok
      have hinj :
          ((((p.poll_channels chans).player).do_tick).clear_elapsed_notes).1 = p2 ∧
          (p.poll_channels chans).channels = chans2 ∧
          (p.poll_channels chans).events ++ startEvs ++ stopEvs = evs := by
        injection hok with h
        exact ⟨congrArg Prod.fst h,
          congrArg Prod.fst (congrArg Prod.snd h),
          congrArg Prod.snd (congrArg Prod.snd h)⟩
      obtain ⟨hp2, hch2, hevs⟩ := hinj
      refine ⟨hp2 ▸ g3.1, hp2 ▸ g3.2, ?_⟩
      have hinsStart : insertRecs startEvs = [] := by
        have := routeMany_ok_filterMap route sink NOTE_ON_MSG
          ((p.poll_channels chans).player).tick_id
          (Ev.routeStart ((p.poll_channels chans).player).tick_id) insEntry
          (fun _ _ _ => rfl) ((p.poll_channels chans).started) startEvs hrm1
        simp only [insEntry] at this
        simp [insertRecs, this]
      have hstopStart : stopRecs startEvs = [] := by
        have := routeMany_ok_filterMap route sink NOTE_ON_MSG
          ((p.poll_channels chans).player).tick_id
          (Ev.routeStart ((p.poll_channels chans).player).tick_id) stopEntry
          (fun _ _ _ => rfl) ((p.poll_channels chans).started) startEvs hrm1
        simp only [stopEntry] at this
        show startEvs.filterMap stopEntry = []
        rw [this]
        simp
      have hinsStop : insertRecs stopEvs = [] := by
        have := routeMany_ok_filterMap route sink NOTE_OFF_MSG
          ((((p.poll_channels chans).player).do_tick).clear_elapsed_notes).1.tick_id
          (Ev.routeStop
            ((((p.poll_channels chans).player).do_tick).clear_elapsed_notes).1.tick_id)
          insEntry (fun _ _ _ => rfl)
          ((((p.poll_channels chans).player).do_tick).clear_elapsed_notes).2
          stopEvs hrm2
        simp only [insEntry] at this
        simp [insertRecs, this]
      have hstopStop : stopRecs stopEvs =
          ((((p.poll_channels chans).player).do_tick).clear_elapsed_notes).2 := by
        have := routeMany_ok_filterMap route sink NOTE_OFF_MSG
          ((((p.poll_channels chans).player).do_tick).clear_elapsed_notes).1.tick_id
          (Ev.routeStop
            ((((p.poll_channels chans).player).do_tick).clear_elapsed_notes).1.tick_id)
          stopEntry (fun _ _ _ => rfl)
          ((((p.poll_channels chans).player).do_tick).clear_elapsed_notes).2
          stopEvs hrm2
        simp only [stopEntry] at this
        show stopEvs.filterMap stopEntry = _
        rw [this]
        simp
      have hinsPoll : insertRecs ((p.poll_channels chans).events) =
          Δ.map Prod.snd := by
        simp [insertRecs, hIns]
      have hstopPoll : stopRecs ((p.poll_channels chans).events) = [] := by
        simp [stopRecs, hStop]
      have hclear := Player.clear_notes_eq
        (((p.poll_channels chans).player).do_tick)
        (fun note => note.start_tick_id + note.note.duration ==
          (((p.poll_channels chans).player).do_tick).tick_id) g2.1
      have hcr1 :
          ((((p.poll_channels chans).player).do_tick).clear_elapsed_notes).1.playing_notes =
          (((p.poll_channels chans).player).do_tick).playing_notes.filter
            (fun kv => !(kv.2.start_tick_id + kv.2.note.duration ==
              (((p.poll_channels chans).player).do_tick).tick_id)) := by
        unfold Player.clear_elapsed_notes
        rw [hclear]
      have hcr2 :
          ((((p.poll_channels chans).player).do_tick).clear_elapsed_notes).2 =
          ((((p.poll_channels chans).player).do_tick).playing_notes.filter
            (fun kv => kv.2.start_tick_id + kv.2.note.duration ==
              (((p.poll_channels chans).player).do_tick).tick_id)).map Prod.snd := by
        unfold Player.clear_elapsed_notes
        rw [hclear]
      rw [← hevs, ← hp2]
      rw [insertRecs_append, insertRecs_append, stopRecs_append, stopRecs_append,
        hinsPoll, hinsStart, hinsStop, hstopPoll, hstopStart, hstopStop,
        List.append_nil, List.append_nil]
      simp only [List.nil_append]
      rw [hcr1, hcr2]
      have htab2 : (((p.poll_channels chans).player).do_tick).playing_notes =
          p.playing_notes ++ Δ := by
        simpa [Player.do_tick] using hT
      rw [htab2]
      have hperm1 := List.filter_append_perm
        (fun kv => kv.2.start_tick_id + kv.2.note.duration ==
          (((p.poll_channels chans).player).do_tick).tick_id)
        (p.playing_notes ++ Δ)
      have hperm2 := (hperm1.map Prod.snd).symm
      rw [List.map_append, List.map_append] at hperm2
      exact List.Perm.trans List.perm_append_comm hperm2

theorem runLoop_ok_balance (route : Nat → Option Nat) (sink : Sink)
    (running : Nat → Bool) :
    ∀ (fuel iter : Nat) (p : Player) (chans : List Channel) (tr : List Ev)
      (pf : Player) (trf : List Ev),
      runLoop route sink running fuel iter p chans tr = Outcome.ok pf trf →
      (p.playing_notes.map Prod.fst).Nodup →
      (∀ kv ∈ p.playing_notes,
        kv.2.start_tick_id ≤ p.tick_id ∧ kv.1 ≤ p.note_id) →
      List.Perm (insertRecs tr) (stopRecs tr ++ p.playing_notes.map Prod.snd) →
      List.Perm (insertRecs trf) (stopRecs trf) ∧ pf.playing_notes = [] := by
  intro fuel
  induction fuel with
  | zero =>
    intro iter p chans tr pf trf hok hnd hb hbal
    simp only [runLoop] at hok
    cases hr : running iter with
    | true =>
      rw [hr] at hok
      exact absurd hok (by simp)
    | false =>
      rw [hr] at hok
      simp only [Bool.false_eq_true, if_false] at hok
      exact drainStep_ok_balance route sink p tr pf trf hok hnd hbal
  | succ fuel ih =>
    intro iter p chans tr pf trf hok hnd hb hbal
    simp only [runLoop] at hok
    cases hr : running iter with
    | false =>
      rw [hr] at hok
      simp only [Bool.false_eq_true, if_false] at hok
      exact drainStep_ok_balance route sink p tr pf trf hok hnd hbal
    | true =>
      rw [hr] at hok
      simp only [if_true] at hok
      cases hlb : loopBody route sink p chans with
      | error fpe =>
        rw [hlb] at hok
        exact absurd hok (by simp)
      | ok r =>
        rw [hlb] at hok
        obtain ⟨p2, chans2, evs⟩ := r
        have hspec := loopBody_ok_spec route sink p p2 chans chans2 evs hlb hnd hb
        refine ih (iter + 1) p2 chans2 (tr ++ evs) pf trf hok hspec.1 hspec.2.1 ?_
        rw [insertRecs_append, stopRecs_append]
        refine (hbal.append_right _).trans ?_
        rw [List.append_assoc, List.append_assoc]
        exact (List.perm_append_comm.trans hspec.2.2).append_left _

/-! ### Claim C1: exactly-once stop -/

/-- Claim C1: in every run of the run loop from a fresh player that returns
normally (fatal sink panics excepted, per the spec's own fatal-error
semantics), the records for which a stop event was routed — by
`clear_elapsed_notes` on natural elapse or by `clear_all_notes` during the
shutdown drain — are, as a multiset, exactly the records ever inserted into
the sounding-note table, and the final table is empty: every inserted record
is removed exactly once, with exactly one stop routing per removal. -/
theorem exactly_once_stop (route : Nat → Option Nat) (sink : Sink)
    (running : Nat → Bool) (fuel : Nat) (chans : List Channel)
    (pf : Player) (tr : List Ev)
    (h : runLoop route sink running fuel 0 Player.new chans [] =
      Outcome.ok pf tr) :
    List.Perm (insertRecs tr) (stopRecs tr) ∧ pf.playing_notes = [] :=
  runLoop_ok_balance route sink running fuel 0 Player.new chans [] pf tr h
    (by simp [Player.new]) (by simp [Player.new])
    (by simp [insertRecs, stopRecs, Player.new])

/-- Witness for C1: a two-iteration run playing one one-tick note; the single
inserted record receives exactly one stop event and the table drains empty. -/
theorem exactly_once_stop_witness :
    List.Perm
      (insertRecs
        [Ev.polled 0 0, Ev.insert 1 ⟨0, 0, ⟨some 60, 1, 100⟩⟩,
         Ev.routeStart 0 ⟨0, 0, ⟨some 60, 1, 100⟩⟩,
         Ev.sent 0 0 [0x90, 60, 100],
         Ev.routeStop 1 ⟨0, 0, ⟨some 60, 1, 100⟩⟩,
         Ev.sent 1 0 [0x80, 60, 100], Ev.polled 1 0])
      (stopRecs
        [Ev.polled 0 0, Ev.insert 1 ⟨0, 0, ⟨some 60, 1, 100⟩⟩,
         Ev.routeStart 0 ⟨0, 0, ⟨some 60, 1, 100⟩⟩,
         Ev.sent 0 0 [0x90, 60, 100],
         Ev.routeStop 1 ⟨0, 0, ⟨some 60, 1, 100⟩⟩,
         Ev.sent 1 0 [0x80, 60, 100], Ev.polled 1 0]) ∧
    (⟨2, 1, []⟩ : Player).playing_notes = [] :=
  exactly_once_stop (fun _ => some 0) ⟨fun _ => true, fun _ _ => true⟩
    (fun i => decide (i < 2)) 3 [⟨[some [⟨some 60, 1, 100⟩]], some []⟩]
    ⟨2, 1, []⟩
    [Ev.polled 0 0, Ev.insert 1 ⟨0, 0, ⟨some 60, 1, 100⟩⟩,
     Ev.routeStart 0 ⟨0, 0, ⟨some 60, 1, 100⟩⟩,
     Ev.sent 0 0 [0x90, 60, 100],
     Ev.routeStop 1 ⟨0, 0, ⟨some 60, 1, 100⟩⟩,
     Ev.sent 1 0 [0x80, 60, 100], Ev.polled 1 0]
    (by decide)

/-! ### Claim C4: fatal sink conditions, universal form -/

theorem routeMany_error_mem (route : Nat → Option Nat) (sink : Sink)
    (status tick : Nat) (mk : PlayingNote → Ev) :
    ∀ (recs : List PlayingNote) (f : Fatal) (evs : List Ev),
      routeMany route sink status tick mk recs = Except.error (f, evs) →
      ∀ e ∈ evs, (∃ r, e = mk r) ∨ ∃ t pt b, e = Ev.sent t pt b := by
  intro recs
  induction recs with
  | nil =>
    intro f evs h
    simp [routeMany] at h
  | cons r rest ih =>
    intro f evs h
    cases h1 : route_note route sink r status with
    | error f2 =>
      have hu : routeMany route sink status tick mk (r :: rest) =
          Except.error (f2, [mk r]) := by
        simp [routeMany, h1]
      rw [hu] at h
      injection h with h
      have h3 : [mk r] = evs := congrArg Prod.snd h
      subst h3
      intro e he
      rcases List.mem_singleton.mp he with rfl
      exact Or.inl ⟨r, rfl⟩
    | ok sends =>
      cases h2 : routeMany route sink status tick mk rest with
      | ok evs2 =>
        have hu : routeMany route sink status tick mk (r :: rest) =
            Except.ok ((mk r :: sends.map (fun pb => Ev.sent tick pb.1 pb.2))
              ++ evs2) := by
          simp [routeMany, h1, h2]
        rw [hu] at h
        exact absurd h (by simp)
      | error fe =>
        have hu : routeMany route sink status tick mk (r :: rest) =
            Except.error (fe.1,
              (mk r :: sends.map (fun pb => Ev.sent tick pb.1 pb.2)) ++ fe.2) := by
          simp [routeMany, h1, h2]
        rw [hu] at h
        injection h with h
        have h3 : (mk r :: sends.map (fun pb => Ev.sent tick pb.1 pb.2)) ++ fe.2
            = evs := congrArg Prod.snd h
        subst h3
        intro e he
        rcases List.mem_append.mp he with h4 | h4
        · rcases List.mem_cons.mp h4 with h5 | h5
          · exact Or.inl ⟨r, h5⟩
          · obtain ⟨pb, _, hpb⟩ := List.mem_map.mp h5
            exact Or.inr ⟨tick, pb.1, pb.2, hpb.symm⟩
        · exact ih fe.1 fe.2 (by rw [h2]) e h4

theorem drainStep_ne_err (route : Nat → Option Nat) (sink : Sink)
    (p : Player) (tr : List Ev) (e : Nat) :
    drainStep route sink p tr ≠ Outcome.err e := by
  intro h
  simp only [drainStep] at h
  split at h <;> simp at h

theorem runLoop_ne_err (route : Nat → Option Nat) (sink : Sink)
    (running : Nat → Bool) :
    ∀ (fuel iter : Nat) (p : Player) (chans : List Channel) (tr : List Ev)
      (e : Nat),
      runLoop route sink running fuel iter p chans tr ≠ Outcome.err e := by
  intro fuel
  induction fuel with
  | zero =>
    intro iter p chans tr e h
    simp only [runLoop] at h
    split at h
    · simp at h
    · exact drainStep_ne_err route sink p tr e h
  | succ fuel ih =>
    intro iter p chans tr e h
    simp only [runLoop] at h
    split at h
    · split at h
      · simp at h
      · exact ih _ _ _ _ _ h
    · exact drainStep_ne_err route sink p tr e h

theorem loopBody_error_no_drainStop (route : Nat → Option Nat) (sink : Sink)
    (p pe : Player) (chans : List Channel) (f : Fatal) (evs : List Ev)
    (h : loopBody route sink p chans = Except.error (f, pe, evs)) :
    ∀ t r, Ev.drainStop t r ∉ evs := by
  obtain ⟨Δ, hT, hTick, hN, hIns, hStop, hkv, hΔnd, hStart⟩ :=
    poll_channels_spec p chans
  simp only [loopBody] at h
  cases hrm1 : routeMany route sink NOTE_ON_MSG
      ((p.poll_channels chans).player).tick_id
      (Ev.routeStart ((p.poll_channels chans).player).tick_id)
      ((p.poll_channels chans).started) with
  | error fe =>
    rw [hrm1] at h
    injection h with h
    have h3 : (p.poll_channels chans).events ++ fe.2 = evs :=
      congrArg Prod.snd (congrArg Prod.snd h)
    subst h3
    intro t r hm
    rcases List.mem_append.mp hm with h1 | h1
    · have hr : (r : PlayingNote) ∈
          (p.poll_channels chans).events.filterMap stopEntry :=
        List.mem_filterMap.mpr ⟨Ev.drainStop t r, h1, rfl⟩
      rw [hStop] at hr
      simp at hr
    · rcases routeMany_error_mem route sink NOTE_ON_MSG
        ((p.poll_channels chans).player).tick_id
        (Ev.routeStart ((p.poll_channels chans).player).tick_id)
        ((p.poll_channels chans).started) fe.1 fe.2 (by rw [hrm1]) _ h1 with
        ⟨r2, hr2⟩ | ⟨t2, pt2, b2, hb2⟩
      · simp at hr2
      · simp at hb2
  | ok startEvs =>
    rw [hrm1] at h
    cases hrm2 : routeMany route sink NOTE_OFF_MSG
        ((((p.poll_channels chans).player).do_tick).clear_elapsed_notes).1.tick_id
        (Ev.routeStop
          ((((p.poll_channels chans).player).do_tick).clear_elapsed_notes).1.tick_id)
        ((((p.poll_channels chans).player).do_tick).clear_elapsed_notes).2 with
    | ok stopEvs =>
      rw [hrm2] at h
      exact absurd h (by simp)
    | error fe =>
      rw [hrm2] at h
      injection h with h
      have h3 : (p.poll_channels chans).events ++ startEvs ++ fe.2 = evs :=
        congrArg Prod.snd (congrArg Prod.snd h)
      subst h3
      have hstopStart : startEvs.filterMap stopEntry = [] := by
        have := routeMany_ok_filterMap route sink NOTE_ON_MSG
          ((p.poll_channels chans).player).tick_id
          (Ev.routeStart ((p.poll_channels chans).player).tick_id) stopEntry
          (fun _ _ _ => rfl) ((p.poll_channels chans).started) startEvs hrm1
        simp only [stopEntry] at this
        rw [this]
        simp
      intro t r hm
      rcases List.mem_append.mp hm with h1 | h1
      · rcases List.mem_append.mp h1 with h2 | h2
        · have hr : (r : PlayingNote) ∈
              (p.poll_channels chans).events.filterMap stopEntry :=
            List.mem_filterMap.mpr ⟨Ev.drainStop t r, h2, rfl⟩
          rw [hStop] at hr
          simp at hr
        · have hr : (r : PlayingNote) ∈ startEvs.filterMap stopEntry :=
            List.mem_filterMap.mpr ⟨Ev.drainStop t r, h2, rfl⟩
          rw [hstopStart] at hr
          simp at hr
      · rcases routeMany_error_mem route sink NOTE_OFF_MSG
          ((((p.poll_channels chans).player).do_tick).clear_elapsed_notes).1.tick_id
          (Ev.routeStop
            ((((p.poll_channels chans).player).do_tick).clear_elapsed_notes).1.tick_id)
          ((((p.poll_channels chans).player).do_tick).clear_elapsed_notes).2
          fe.1 fe.2 (by rw [hrm2]) _ h1 with
          ⟨r2, hr2⟩ | ⟨t2, pt2, b2, hb2⟩
        · simp at hr2
        · simp at hb2

/-- Claim C4 as amended: whenever any event is routed to a destination for
which the sink has no open connection, or whose send fails, `route_note`
raises the corresponding fatal condition (a panic in the source) — stated for
every record, status byte and sink; a running-loop iteration in which routing
fails terminates the run immediately as the panicked outcome carrying the
un-drained player state, with no drain-stop event routed; the `Result` error
value of `try_run_ext` carries only startup connection failures, never sink
failures, so the fatal condition unwinds as a panic rather than being
returned; and concretely, both failure modes panic on the first routed event
with the record still in the table. -/
theorem sink_failure_panics :
    (∀ (route : Nat → Option Nat) (sink : Sink) (playing : PlayingNote)
        (status v port : Nat),
      playing.note.u8_maybe = some v →
      route playing.channel_id = some port →
      (sink.hasConn port = false →
        route_note route sink playing status =
          Except.error (Fatal.noConnection port)) ∧
      (sink.hasConn port = true →
        sink.sendOk port [status, v, playing.note.velocity] = false →
        route_note route sink playing status =
          Except.error (Fatal.sendFailed port))) ∧
    (∀ (route : Nat → Option Nat) (sink : Sink) (running : Nat → Bool)
        (fuel iter : Nat) (p : Player) (chans : List Channel) (tr : List Ev)
        (f : Fatal) (pe : Player) (evs : List Ev),
      running iter = true →
      loopBody route sink p chans = Except.error (f, pe, evs) →
      runLoop route sink running (fuel + 1) iter p chans tr =
        Outcome.panicked f pe (tr ++ evs) ∧
      ∀ t r, Ev.drainStop t r ∉ evs) ∧
    (∀ (numPorts : Nat) (requiredPorts : List Nat) (connectOk : Nat → Bool)
        (route : Nat → Option Nat) (sendOk : Nat → List Nat → Bool)
        (running : Nat → Bool) (fuel : Nat) (chans : List Channel) (i : Nat),
      try_run_ext numPorts requiredPorts connectOk route sendOk running fuel
          chans = Outcome.err i →
      i < numPorts ∧ requiredPorts.contains i = true ∧ connectOk i = false) ∧
    (∀ pc vel fuel : Nat,
      sinkFailRun pc vel (fuel + 1) =
        Outcome.panicked (Fatal.noConnection 0)
          ⟨0, 1, [(1, ⟨0, 0, ⟨some pc, 1, vel⟩⟩)]⟩
          [Ev.polled 0 0, Ev.insert 1 ⟨0, 0, ⟨some pc, 1, vel⟩⟩,
           Ev.routeStart 0 ⟨0, 0, ⟨some pc, 1, vel⟩⟩]) ∧
    (∀ pc vel fuel : Nat,
      sendFailRun pc vel (fuel + 1) =
        Outcome.panicked (Fatal.sendFailed 0)
          ⟨0, 1, [(1, ⟨0, 0, ⟨some pc, 1, vel⟩⟩)]⟩
          [Ev.polled 0 0, Ev.insert 1 ⟨0, 0, ⟨some pc, 1, vel⟩⟩,
           Ev.routeStart 0 ⟨0, 0, ⟨some pc, 1, vel⟩⟩]) := by
  refine ⟨?_, ?_, ?_, ?_, ?_⟩
  · intro route sink playing status v port hv hp
    constructor
    · intro hconn
      simp [route_note, hv, hp, hconn]
    · intro hconn hsend
      simp [route_note, hv, hp, hconn, hsend]
  · intro route sink running fuel iter p chans tr f pe evs hr hlb
    constructor
    · simp [runLoop, hr, hlb]
    · exact loopBody_error_no_drainStop route sink p pe chans f evs hlb
  · intro numPorts requiredPorts connectOk route sendOk running fuel chans i h
    unfold try_run_ext at h
    cases hf : (List.range numPorts).find?
        (fun j => requiredPorts.contains j && !(connectOk j)) with
    | none =>
      rw [hf] at h
      exact absurd h (runLoop_ne_err _ _ _ fuel 0 Player.new chans [] i)
    | some j =>
      rw [hf] at h
      injection h with h
      subst h
      have hpj := List.find?_some hf
      have hmem := List.mem_of_find?_eq_some hf
      rw [List.mem_range] at hmem
      rw [Bool.and_eq_true] at hpj
      refine ⟨hmem, hpj.1, ?_⟩
      have h2 := hpj.2
      simpa using h2
  · intro pc vel fuel
    rfl
  · intro pc vel fuel
    rfl

/-- Witness for C4: both fatal branches of `route_note` at a concrete event, a
concrete startup error attributed to its failing port, and the two concrete
panicking runs. -/
theorem sink_failure_panics_witness :
    route_note (fun _ => some 0) ⟨fun _ => false, fun _ _ => true⟩
        ⟨0, 0, ⟨some 60, 1, 100⟩⟩ NOTE_ON_MSG =
      Except.error (Fatal.noConnection 0) ∧
    route_note (fun _ => some 0) ⟨fun _ => true, fun _ _ => false⟩
        ⟨0, 0, ⟨some 60, 1, 100⟩⟩ NOTE_ON_MSG =
      Except.error (Fatal.sendFailed 0) ∧
    (0 < 1 ∧ ([0] : List Nat).contains 0 = true ∧
      (fun _ : Nat => false) 0 = false) ∧
    sinkFailRun 60 100 1 =
      Outcome.panicked (Fatal.noConnection 0)
        ⟨0, 1, [(1, ⟨0, 0, ⟨some 60, 1, 100⟩⟩)]⟩
        [Ev.polled 0 0, Ev.insert 1 ⟨0, 0, ⟨some 60, 1, 100⟩⟩,
         Ev.routeStart 0 ⟨0, 0, ⟨some 60, 1, 100⟩⟩] ∧
    sendFailRun 60 100 1 =
      Outcome.panicked (Fatal.sendFailed 0)
        ⟨0, 1, [(1, ⟨0, 0, ⟨some 60, 1, 100⟩⟩)]⟩
        [Ev.polled 0 0, Ev.insert 1 ⟨0, 0, ⟨some 60, 1, 100⟩⟩,
         Ev.routeStart 0 ⟨0, 0, ⟨some 60, 1, 100⟩⟩] :=
  ⟨(sink_failure_panics.1 (fun _ => some 0) ⟨fun _ => false, fun _ _ => true⟩
      ⟨0, 0, ⟨some 60, 1, 100⟩⟩ NOTE_ON_MSG 60 0 rfl rfl).1 rfl,
   (sink_failure_panics.1 (fun _ => some 0) ⟨fun _ => true, fun _ _ => false⟩
      ⟨0, 0, ⟨some 60, 1, 100⟩⟩ NOTE_ON_MSG 60 0 rfl rfl).2 rfl rfl,
   sink_failure_panics.2.2.1 1 [0] (fun _ => false) (fun _ => some 0)
     (fun _ _ => true) (fun _ => true) 3 [] 0 (by decide),
   sink_failure_panics.2.2.2.1 60 100 0,
   sink_failure_panics.2.2.2.2 60 100 0⟩
